import Mathlib

/-
  Verification of the `enum` CLI tool (ECS/EC2 container troubleshooting helper)
  against its natural-language specification.

  Shallow embedding conventions:
  - External effects (SSH agent, TCP dial, session open, remote command run,
    terminal queries, AWS API calls) are modelled as environment/oracle records
    whose fields give the outcome of the corresponding external step; the
    embedded functions mirror the Go control flow over those outcomes.
  - Every remote call a dispatch function issues is recorded in a trace
    (`Call` values), and everything printed via fmt is recorded in `stdout`,
    everything printed via log in `logs`.
  - Go strings are Lean `String`s; braces inside docker format strings are
    written with \x7b / \x7d escapes, apostrophes with \x27.
-/

namespace Enum

/-! ### ssh package: `SSHCommand` (ssh.go) -/

/-- Outcome of `session.Run` on the remote side: either a remote non-zero exit
(`*ssh.ExitError` in Go) or any other failure of the run. -/
inductive RunError where
  | exitError (code : Nat)
  | otherError (msg : String)
deriving DecidableEq, Repr

/-- Environment for one `SSHCommand` invocation: the outcome of each external
step the Go function performs, in source order (`user.Current`, dialing the
SSH agent socket, `ssh.Dial`, `conn.NewSession`, `session.Run`), together with
the output the remote command wrote to the session's stdout and stderr
buffers. -/
structure SSHEnv where
  currentUser : Except String String
  agentDial : Except String Unit
  dial : Except String Unit
  newSession : Except String Unit
  runResult : Option RunError
  stdout : String
  stderr : String

/-- Embedding of `ssh.SSHCommand(host, command, verbose, ignoreExitCode)`:
runs the command over a one-shot SSH session and returns captured stdout.
When `session.Run` fails with an `*ssh.ExitError` and `ignoreExitCode` is
true, the captured stdout is returned with no error; every other failure
(user lookup, agent, dial, session open, non-exit run failure, or an exit
error with `ignoreExitCode=false`) returns an error. `verbose` only controls
progress printing in the source and is not observable here. -/
def SSHCommand (env : SSHEnv) (command : String) (_verbose ignoreExitCode : Bool) :
    Except String String :=
  match env.currentUser with
  | .error e => .error ("unable to get current user: " ++ e)
  | .ok _username =>
    match env.agentDial with
    | .error e => .error ("failed to connect to SSH agent: " ++ e)
    | .ok _ =>
      match env.dial with
      | .error e => .error ("failed to dial SSH: " ++ e)
      | .ok _ =>
        match env.newSession with
        | .error e => .error ("failed to create SSH session: " ++ e)
        | .ok _ =>
          match env.runResult with
          | none => .ok env.stdout
          | some (RunError.exitError _code) =>
            if ignoreExitCode then
              .ok env.stdout
            else
              .error ("failed to run command \x27" ++ command ++ "\x27: exit error" ++
                "\nStderr: " ++ env.stderr)
          | some (RunError.otherError m) =>
            .error ("failed to run command \x27" ++ command ++ "\x27: " ++ m ++
              "\nStderr: " ++ env.stderr)

/-- Environment for one `SSHCommandStream` invocation (same external steps as
`SSHCommand`; output goes straight to the console so no buffers are kept). -/
structure StreamEnv where
  currentUser : Except String Unit
  agentDial : Except String Unit
  dial : Except String Unit
  newSession : Except String Unit
  runResult : Option RunError

/-- Embedding of `ssh.SSHCommandStream(host, command)`: identical
connection/auth chain to `SSHCommand`, output streamed live; any failure of
`session.Run` (exit error or otherwise) is an error. -/
def SSHCommandStream (env : StreamEnv) (_command : String) : Except String Unit :=
  match env.currentUser with
  | .error e => .error ("unable to get current user: " ++ e)
  | .ok _ =>
    match env.agentDial with
    | .error e => .error ("failed to connect to SSH agent: " ++ e)
    | .ok _ =>
      match env.dial with
      | .error e => .error ("failed to dial: " ++ e)
      | .ok _ =>
        match env.newSession with
        | .error e => .error ("failed to create session: " ++ e)
        | .ok _ =>
          match env.runResult with
          | none => .ok ()
          | some _ => .error "failed to run command"

/-! ### ssh package: `SSHInteractiveShell` -/

/-- Local terminal mode: either ordinary (cooked) mode carrying an abstract
descriptor value, or raw mode as entered by `term.MakeRaw`. -/
inductive TermMode where
  | cooked (v : Nat)
  | raw
deriving DecidableEq, Repr

/-- Observable events of one `SSHInteractiveShell` run, in order. -/
inductive SEvent where
  | madeRaw
  | restoredMode
  | requestPty (termName : String) (h w : Nat)
  | warnedNotTTY
  | ranCommand (cmd : String)
  | startedShell
deriving DecidableEq, Repr

/-- Environment for one `SSHInteractiveShell` invocation: outcomes of the
connection chain, whether local stdin is a terminal (`term.IsTerminal`), and
outcomes of `term.MakeRaw`, `term.GetSize` (returning width and height),
`session.RequestPty`, `session.Run`, `session.Shell` and `session.Wait`. -/
structure ShellEnv where
  currentUser : Except String Unit
  agentDial : Except String Unit
  dial : Except String Unit
  newSession : Except String Unit
  isTerminal : Bool
  makeRaw : Except String Unit
  getSize : Except String (Nat × Nat)
  requestPty : Except String Unit
  runResult : Option RunError
  shellStart : Except String Unit
  waitResult : Option RunError

/-- Command-execution phase of `SSHInteractiveShell`: the concatenated
`fullCommand` is never empty (it always starts with "sudo docker exec"), so
the `session.Run` branch is taken; the `session.Shell`/`session.Wait` branch
is kept for faithfulness to the source's `if fullCommand != ""`. -/
def shellRunPhase (env : ShellEnv) (fullCommand : String) :
    List SEvent × Except String Unit :=
  if fullCommand ≠ "" then
    match env.runResult with
    | none => ([SEvent.ranCommand fullCommand], .ok ())
    | some _ => ([SEvent.ranCommand fullCommand], .error "failed to run command")
  else
    match env.shellStart with
    | .error e => ([], .error ("failed to start shell: " ++ e))
    | .ok _ =>
      match env.waitResult with
      | none => ([SEvent.startedShell], .ok ())
      | some _ => ([SEvent.startedShell], .error "shell exited with error")

/-- Embedding of `ssh.SSHInteractiveShell(host, containerID, command)`
(ssh.go, current revision). Returns the final local terminal mode, the event
trace and the result. When stdin is a terminal the mode is saved, switched to
raw, a pty sized to the local terminal is requested, and a deferred
`term.Restore` puts the saved mode back on every return path after a
successful `MakeRaw`; when stdin is not a terminal a warning is printed and
neither raw mode nor a pty is used. -/
def SSHInteractiveShell (env : ShellEnv) (containerID command : String) (m0 : TermMode) :
    TermMode × List SEvent × Except String Unit :=
  match env.currentUser with
  | .error e => (m0, [], .error ("unable to get current user: " ++ e))
  | .ok _ =>
    match env.agentDial with
    | .error e => (m0, [], .error ("failed to connect to SSH agent: " ++ e))
    | .ok _ =>
      match env.dial with
      | .error e => (m0, [], .error ("failed to dial: " ++ e))
      | .ok _ =>
        match env.newSession with
        | .error e => (m0, [], .error ("failed to create session: " ++ e))
        | .ok _ =>
          let fullCommand := "sudo docker exec -it " ++ containerID ++ " " ++ command
          if env.isTerminal then
            match env.makeRaw with
            | .error e => (m0, [], .error ("failed to make terminal raw: " ++ e))
            | .ok _ =>
              -- mode is raw from here; deferred Restore applies to every return below
              match env.getSize with
              | .error e =>
                (m0, [SEvent.madeRaw, SEvent.restoredMode],
                  .error ("failed to get terminal size: " ++ e))
              | .ok (w, h) =>
                match env.requestPty with
                | .error e =>
                  (m0, [SEvent.madeRaw, SEvent.requestPty "xterm" h w, SEvent.restoredMode],
                    .error ("request for pseudo terminal failed: " ++ e))
                | .ok _ =>
                  let (evs, r) := shellRunPhase env fullCommand
                  (m0, SEvent.madeRaw :: SEvent.requestPty "xterm" h w ::
                    (evs ++ [SEvent.restoredMode]), r)
          else
            let (evs, r) := shellRunPhase env fullCommand
            (m0, SEvent.warnedNotTTY :: evs, r)

/-! ### aws package (aws/aws.go) -/

/-- Go struct `aws.InstanceData` (the field `Type` is renamed `instanceType`
because `type` is reserved in Lean). -/
structure InstanceData where
  instanceID : String
  name : String
  state : String
  instanceType : String
  privateIP : String
deriving DecidableEq, Repr

/-- Relevant fields of one EC2 instance as returned by `DescribeInstances`
(pointer fields are taken already dereferenced, as `aws.StringValue` does). -/
structure EC2Instance where
  instanceId : String
  stateName : String
  instanceType : String
  privateIpAddress : String
  tags : List (String × String)
deriving DecidableEq, Repr

/-- One reservation of the `DescribeInstances` response. -/
structure Reservation where
  instances : List EC2Instance
deriving DecidableEq, Repr

/-- Oracle for the AWS API calls the tool performs: results of
`ecs.ListClusters`, `ecs.ListContainerInstances` (cluster to container
instance ARNs), `ecs.DescribeContainerInstances` (cluster and ARNs to EC2
instance ids) and `ec2.DescribeInstances` (ids to reservations). -/
structure AWSEnv where
  listClusters : Except String (List String)
  listContainerInstances : String → Except String (List String)
  describeContainerInstances : String → List String → Except String (List String)
  describeInstances : List String → Except String (List Reservation)

/-- Configuration of an AWS session as built by
`session.NewSessionWithOptions`. -/
structure AWSSession where
  profile : String
  region : String
deriving DecidableEq, Repr

/-- Embedding of the session setup both AWS entry points perform: the profile
is the caller's `awsProfile` and the region is the hard-coded `"us-west-2"`. -/
def newSessionWithOptions (awsProfile : String) : AWSSession :=
  { profile := awsProfile, region := "us-west-2" }

/-- One cloud API call as issued by the tool, tagged with the region and
profile of the session it is issued through. -/
inductive APICall where
  | listClusters (region profile : String)
  | listContainerInstances (region profile cluster : String)
  | describeContainerInstances (region profile cluster : String)
  | describeInstances (region profile : String)
deriving DecidableEq, Repr

/-- Region of an API call. -/
def APICall.region : APICall → String
  | .listClusters r _ => r
  | .listContainerInstances r _ _ => r
  | .describeContainerInstances r _ _ => r
  | .describeInstances r _ => r

/-- Credentials profile of an API call. -/
def APICall.profile : APICall → String
  | .listClusters _ p => p
  | .listContainerInstances _ p _ => p
  | .describeContainerInstances _ p _ => p
  | .describeInstances _ p => p

/-- Name derived from the tags of an instance: value of the first tag with
key "Name", defaulting to "Unnamed". -/
def instanceName (tags : List (String × String)) : String :=
  match tags.find? (fun t => t.1 = "Name") with
  | some t => t.2
  | none => "Unnamed"

/-- Instance-building loop of `FetchEC2InstanceData`: flattens reservations,
derives each instance's display name from its tags and, when `onlyRunning` is
set, drops instances whose state is not "running". -/
def buildInstances (onlyRunning : Bool) (reservations : List Reservation) :
    List InstanceData :=
  (reservations.map (fun r =>
    r.instances.filterMap (fun inst =>
      if onlyRunning ∧ inst.stateName ≠ "running" then none
      else some { instanceID := inst.instanceId, name := instanceName inst.tags,
                  state := inst.stateName, instanceType := inst.instanceType,
                  privateIP := inst.privateIpAddress }))).flatten

/-- Final sort step of `FetchEC2InstanceData`: `sort.Slice` with the
comparator `instances[i].Name < instances[j].Name`. Go's `sort.Slice` promises
a sorted permutation but is NOT guaranteed to be stable; this model uses a
concrete sort and its tie behavior therefore is not a property of the
source. -/
def sortByName (l : List InstanceData) : List InstanceData :=
  l.mergeSort (fun a b => a.name ≤ b.name)

/-- Embedding of `aws.FetchEC2InstanceData(clusterName, awsProfile,
onlyRunning)`: lists the cluster's container instances, describes them to get
EC2 instance ids, describes those instances, builds the `InstanceData` list
and sorts it by name. Returns the trace of API calls and the result; an empty
container-instance list short-circuits to an empty (nil) result with no
error. -/
def fetchEC2InstanceData (env : AWSEnv) (clusterName awsProfile : String)
    (onlyRunning : Bool) : List APICall × Except String (List InstanceData) :=
  let sess := newSessionWithOptions awsProfile
  let c1 := APICall.listContainerInstances sess.region sess.profile clusterName
  match env.listContainerInstances clusterName with
  | .error e =>
    ([c1], .error ("error listing container instances for cluster " ++ clusterName ++
      ": " ++ e))
  | .ok arns =>
    if arns.isEmpty then
      ([c1], .ok [])
    else
      let c2 := APICall.describeContainerInstances sess.region sess.profile clusterName
      match env.describeContainerInstances clusterName arns with
      | .error e => ([c1, c2], .error ("error describing container instances: " ++ e))
      | .ok instanceIds =>
        let c3 := APICall.describeInstances sess.region sess.profile
        match env.describeInstances instanceIds with
        | .error e => ([c1, c2, c3], .error ("error describing EC2 instances: " ++ e))
        | .ok reservations =>
          ([c1, c2, c3], .ok (sortByName (buildInstances onlyRunning reservations)))

/-- Cluster name extracted from an ARN: the last "/"-separated segment. -/
def clusterNameOfARN (arn : String) : String :=
  (arn.splitOn "/").getLastD arn

/-- Embedding of `aws.ListECSClusters(awsProfile)`: lists cluster ARNs,
extracts and sorts the cluster names (printed as a table in the source; the
sorted list stands for the printed rows here). Returns the API-call trace and
the result. -/
def listECSClusters (env : AWSEnv) (awsProfile : String) :
    List APICall × Except String (List String) :=
  let sess := newSessionWithOptions awsProfile
  let c1 := APICall.listClusters sess.region sess.profile
  match env.listClusters with
  | .error e => ([c1], .error ("failed to list clusters: " ++ e))
  | .ok arns => ([c1], .ok ((arns.map clusterNameOfARN).mergeSort (fun a b => a ≤ b)))

/-! ### main package: dispatch loops (main.go, current revision) -/

/-- One remote call issued by a dispatch loop: a buffered `ssh.SSHCommand`
(with its `verbose` and `ignoreExitCode` arguments), a streaming
`ssh.SSHCommandStream`, or an `ssh.SSHInteractiveShell`. -/
inductive Call where
  | sshCommand (host cmd : String) (verbose ignoreExitCode : Bool)
  | sshStream (host cmd : String)
  | interactiveShell (host containerID cmd : String)
deriving DecidableEq, Repr

/-- Target host address of a call. -/
def Call.host : Call → String
  | .sshCommand h _ _ _ => h
  | .sshStream h _ => h
  | .interactiveShell h _ _ => h

/-- True exactly for the buffered `SSHCommand` calls whose `ignoreExitCode`
argument is true. -/
def Call.ignoresExitCode : Call → Bool
  | .sshCommand _ _ _ b => b
  | _ => false

/-- Everything a dispatch function emits besides its return value: the remote
calls in order, the lines printed with fmt (stdout) and the messages printed
with log (stderr). -/
structure Trace where
  calls : List Call
  stdout : List String
  logs : List String
deriving DecidableEq, Repr

/-- Probe command of inspect/logs/shell:
`sudo docker ps --filter "id=<cid>" --format '{{.ID}}'`. -/
def checkCmd (containerID : String) : String :=
  "sudo docker ps --filter \"id=" ++ containerID ++ "\" --format \x27\x7b\x7b.ID\x7d\x7d\x27"

/-- Action command of inspect: `sudo docker inspect <cid>`. -/
def inspectCmd (containerID : String) : String :=
  "sudo docker inspect " ++ containerID

/-- Action command of logs: `sudo docker logs -f <cid>`. -/
def logCmd (containerID : String) : String :=
  "sudo docker logs -f " ++ containerID

/-- Base listing command of find:
`sudo docker ps --format '{{.Names}}\t{{.ID}}\t{{.Status}}\t{{.RunningFor}}'`. -/
def psCmd : String :=
  "sudo docker ps --format \x27\x7b\x7b.Names\x7d\x7d\t\x7b\x7b.ID\x7d\x7d\t" ++
    "\x7b\x7b.Status\x7d\x7d\t\x7b\x7b.RunningFor\x7d\x7d\x27"

/-- Model of `strings.ReplaceAll(s, " ", "")`: every space character is
removed. -/
def removeSpaces (s : String) : String :=
  String.mk (s.data.filter (fun c => c ≠ ' '))

/-- Remote command built by find: the bare listing when the search term is
empty, otherwise the listing piped into `grep '<cleaned term>'` where the
cleaned term is the search term with all spaces removed. -/
def findCmd (searchTerm : String) : String :=
  if searchTerm = "" then psCmd
  else psCmd ++ " | grep \x27" ++ removeSpaces searchTerm ++ "\x27"

/-- One row printed by find (the Printf fields, column widths elided):
originating EC2 instance name, container id, status, running-for and
container name. -/
structure Row where
  ec2Instance : String
  containerID : String
  status : String
  runningFor : String
  containerName : String
deriving DecidableEq, Repr

/-- Splitting of a character list at every occurrence of a separator
character; models Go `strings.Split` for a one-character separator (always
returns at least one, possibly empty, group). -/
def splitChar (sep : Char) : List Char → List (List Char)
  | [] => [[]]
  | c :: cs =>
    if c = sep then [] :: splitChar sep cs
    else
      match splitChar sep cs with
      | [] => [[c]]
      | g :: gs => (c :: g) :: gs

/-- Model of `strings.Split(s, sep)` for a one-character separator, as used
by find with "\n" and "\t". -/
def splitField (sep : Char) (s : String) : List String :=
  (splitChar sep s.data).map String.mk

/-- Line-splitting and formatting step of find: output is split on newlines;
each non-empty line is split on tabs and printed as a row (prefixed with the
given instance name) when it has at least 4 fields. -/
def rowsOfOutput (instName output : String) : List Row :=
  (splitField '\n' output).filterMap (fun line =>
    if line = "" then none
    else
      let parts := splitField '\t' line
      if 4 ≤ parts.length then
        some { ec2Instance := instName, containerID := parts.getD 1 "",
               status := parts.getD 2 "", runningFor := parts.getD 3 "",
               containerName := parts.getD 0 "" }
      else none)

/-- Per-instance loop of `find(searchTerm)`: skips instances with an empty
private IP, runs the filter command with `ignoreExitCode=true`, logs and
continues on error, and otherwise prints the formatted rows; no stop on
match. Returns (calls, rows, log messages). -/
def findGo (net : String → String → SSHEnv) (searchTerm : String) :
    List InstanceData → List Call × List Row × List String
  | [] => ([], [], [])
  | inst :: rest =>
    if inst.privateIP = "" then
      findGo net searchTerm rest
    else
      let cmd := findCmd searchTerm
      let c := Call.sshCommand inst.privateIP cmd false true
      match SSHCommand (net inst.privateIP cmd) cmd false true with
      | .error e =>
        let (cs, rows, ls) := findGo net searchTerm rest
        (c :: cs, rows,
          ("Error executing command on instance " ++ inst.name ++ ": " ++ e) :: ls)
      | .ok output =>
        let (cs, rows, ls) := findGo net searchTerm rest
        (c :: cs, rowsOfOutput inst.name output ++ rows, ls)

/-- Embedding of `find(searchTerm)` (main.go): fetches the running instances
(`log.Fatalf`, modelled as an error result, if that fails), then iterates all
of them with `findGo`. The printed header row is presentation only and
elided. -/
def find (fetch : Except String (List InstanceData)) (net : String → String → SSHEnv)
    (searchTerm : String) : List Call × List Row × List String × Except String Unit :=
  match fetch with
  | .error e => ([], [], [], .error ("Error fetching instances: " ++ e))
  | .ok instances =>
    let (cs, rows, ls) := findGo net searchTerm instances
    (cs, rows, ls, .ok ())

/-- Per-instance loop of `inspectContainer`: skip empty-IP instances; probe
with `checkCmd` (`ignoreExitCode=false`); on probe error log and continue; on
empty probe output continue; otherwise run `docker inspect`
(`ignoreExitCode=false`); on action error log and continue; on non-empty
inspect output print it and return (found = true); on empty inspect output
continue. -/
def inspectLoop (net : String → String → SSHEnv) (containerID : String) :
    List InstanceData → Trace × Bool
  | [] => (⟨[], [], []⟩, false)
  | inst :: rest =>
    if inst.privateIP = "" then
      inspectLoop net containerID rest
    else
      let ccmd := checkCmd containerID
      let pc := Call.sshCommand inst.privateIP ccmd false false
      match SSHCommand (net inst.privateIP ccmd) ccmd false false with
      | .error e =>
        let (t, f) := inspectLoop net containerID rest
        (⟨pc :: t.calls, t.stdout,
          ("Error checking container on instance " ++ inst.instanceID ++ ": " ++ e) ::
            t.logs⟩, f)
      | .ok checkOutput =>
        if checkOutput = "" then
          let (t, f) := inspectLoop net containerID rest
          (⟨pc :: t.calls, t.stdout, t.logs⟩, f)
        else
          let icmd := inspectCmd containerID
          let ac := Call.sshCommand inst.privateIP icmd false false
          match SSHCommand (net inst.privateIP icmd) icmd false false with
          | .error e =>
            let (t, f) := inspectLoop net containerID rest
            (⟨pc :: ac :: t.calls, t.stdout,
              ("Error executing inspect on instance " ++ inst.instanceID ++ ": " ++ e) ::
                t.logs⟩, f)
          | .ok inspectOutput =>
            if inspectOutput ≠ "" then
              (⟨[pc, ac],
                ["---------- Inspect output from " ++ inst.name ++ " ----------",
                 inspectOutput], []⟩, true)
            else
              let (t, f) := inspectLoop net containerID rest
              (⟨pc :: ac :: t.calls, t.stdout, t.logs⟩, f)

/-- Embedding of `inspectContainer(containerID)` (main.go): fetch instances
(error aborts with a message), loop with `inspectLoop`, and print the
not-found line when the loop fell through; the function returns nil in either
case. -/
def inspectContainer (fetch : Except String (List InstanceData))
    (net : String → String → SSHEnv) (containerID : String) :
    Trace × Except String Unit :=
  match fetch with
  | .error e => (⟨[], [], []⟩, .error ("error fetching EC2 instance data: " ++ e))
  | .ok instances =>
    let (t, found) := inspectLoop net containerID instances
    if found then (t, .ok ())
    else (⟨t.calls, t.stdout ++ ["Container not found on any instance."], t.logs⟩, .ok ())

/-- Per-instance loop of `followContainerLogs`: skip empty-IP instances;
probe with `checkCmd` (`ignoreExitCode=false`); on probe error log and
continue; on empty probe output continue; otherwise print the attempt line
and stream `docker logs -f`; on stream error log and continue; on success set
found and break. -/
def logsLoop (net : String → String → SSHEnv) (stream : String → String → StreamEnv)
    (containerID : String) : List InstanceData → Trace × Bool
  | [] => (⟨[], [], []⟩, false)
  | inst :: rest =>
    if inst.privateIP = "" then
      logsLoop net stream containerID rest
    else
      let ccmd := checkCmd containerID
      let pc := Call.sshCommand inst.privateIP ccmd false false
      match SSHCommand (net inst.privateIP ccmd) ccmd false false with
      | .error e =>
        let (t, f) := logsLoop net stream containerID rest
        (⟨pc :: t.calls, t.stdout,
          ("Error checking container on instance " ++ inst.instanceID ++ ": " ++ e) ::
            t.logs⟩, f)
      | .ok checkOutput =>
        if checkOutput = "" then
          let (t, f) := logsLoop net stream containerID rest
          (⟨pc :: t.calls, t.stdout, t.logs⟩, f)
        else
          let lcmd := logCmd containerID
          let sc := Call.sshStream inst.privateIP lcmd
          let attempt := "Attempting to follow logs on instance " ++ inst.instanceID ++
            " (" ++ inst.name ++ ")"
          match SSHCommandStream (stream inst.privateIP lcmd) lcmd with
          | .error e =>
            let (t, f) := logsLoop net stream containerID rest
            (⟨pc :: sc :: t.calls, attempt :: t.stdout,
              ("Error executing command on instance " ++ inst.instanceID ++ ": " ++ e) ::
                t.logs⟩, f)
          | .ok _ => (⟨[pc, sc], [attempt], []⟩, true)

/-- Embedding of `followContainerLogs(containerID)` (main.go). -/
def followContainerLogs (fetch : Except String (List InstanceData))
    (net : String → String → SSHEnv) (stream : String → String → StreamEnv)
    (containerID : String) : Trace × Except String Unit :=
  match fetch with
  | .error e => (⟨[], [], []⟩, .error ("error fetching EC2 instance data: " ++ e))
  | .ok instances =>
    let (t, found) := logsLoop net stream containerID instances
    if found then (t, .ok ())
    else
      (⟨t.calls, t.stdout ++ ["Container not found on any instance or unable to connect."],
        t.logs⟩, .ok ())

/-- Per-instance loop of `shell`: skip empty-IP instances; probe with
`checkCmd` (`ignoreExitCode=false`); on probe error log and continue; on
non-empty probe output print the found line and open the interactive session;
on session error log and continue; on success set found and break. The local
terminal mode is threaded through the interactive sessions. -/
def shellLoop (net : String → String → SSHEnv) (ishellEnv : String → ShellEnv)
    (containerID fullCommand : String) (m : TermMode) :
    List InstanceData → Trace × TermMode × Bool
  | [] => (⟨[], [], []⟩, m, false)
  | inst :: rest =>
    if inst.privateIP = "" then
      shellLoop net ishellEnv containerID fullCommand m rest
    else
      let ccmd := checkCmd containerID
      let pc := Call.sshCommand inst.privateIP ccmd false false
      match SSHCommand (net inst.privateIP ccmd) ccmd false false with
      | .error e =>
        let (t, m2, f) := shellLoop net ishellEnv containerID fullCommand m rest
        (⟨pc :: t.calls, t.stdout,
          ("Error executing command on instance " ++ inst.instanceID ++ ": " ++ e) ::
            t.logs⟩, m2, f)
      | .ok output =>
        if output ≠ "" then
          let foundLine := "Container " ++ containerID ++ " found on instance " ++
            inst.instanceID ++ " (" ++ inst.name ++ "). Starting shell session..."
          let ic := Call.interactiveShell inst.privateIP containerID fullCommand
          let (m2, _evs, r) := SSHInteractiveShell (ishellEnv inst.privateIP)
            containerID fullCommand m
          match r with
          | .error e =>
            let (t, m3, f) := shellLoop net ishellEnv containerID fullCommand m2 rest
            (⟨pc :: ic :: t.calls, foundLine :: t.stdout,
              ("Error starting interactive shell session: " ++ e) :: t.logs⟩, m3, f)
          | .ok _ => (⟨[pc, ic], [foundLine], []⟩, m2, true)
        else
          let (t, m2, f) := shellLoop net ishellEnv containerID fullCommand m rest
          (⟨pc :: t.calls, t.stdout, t.logs⟩, m2, f)

/-- Command `shell` runs inside the container: `/bin/sh` when no extra
arguments are given, otherwise the arguments joined with spaces
(`strings.Join(args, " ")`). -/
def shellFullCommand (args : List String) : String :=
  if args.isEmpty then "/bin/sh" else String.intercalate " " args

/-- Embedding of `shell(containerID, args)` (main.go): fetch instances (error
aborts with a message), compute the command to run inside the container
(`shellFullCommand`), loop with `shellLoop`, and print the not-found line
when the loop fell through; returns nil in either case. -/
def shell (fetch : Except String (List InstanceData))
    (net : String → String → SSHEnv) (ishellEnv : String → ShellEnv)
    (containerID : String) (args : List String) (m : TermMode) :
    Trace × TermMode × Except String Unit :=
  match fetch with
  | .error e => (⟨[], [], []⟩, m, .error ("error fetching EC2 instance data: " ++ e))
  | .ok instances =>
    let (t, m2, found) := shellLoop net ishellEnv containerID (shellFullCommand args) m instances
    if found then (t, m2, .ok ())
    else
      (⟨t.calls, t.stdout ++ ["Container not found on any instance or unable to connect."],
        t.logs⟩, m2, .ok ())

/-- Reachable instances: those the dispatch loops do not skip, i.e. with a
non-empty private IP. -/
def reachable (l : List InstanceData) : List InstanceData :=
  l.filter (fun i => i.privateIP ≠ "")

/-- Probe call a single-target loop records for an instance. -/
def probeCall (containerID : String) (inst : InstanceData) : Call :=
  Call.sshCommand inst.privateIP (checkCmd containerID) false false

/-- Probe result of an instance in a single-target loop. -/
def probeResult (net : String → String → SSHEnv) (containerID : String)
    (inst : InstanceData) : Except String String :=
  SSHCommand (net inst.privateIP (checkCmd containerID)) (checkCmd containerID) false false

/-- True when a probe result means "not on this host" for the iteration: the
probe errored, or returned empty output. -/
def probeNoMatch (r : Except String String) : Bool :=
  match r with
  | .ok s => s = ""
  | .error _ => true

/-! ### Helper lemmas about the dispatch loops -/

/-- When every reachable instance's probe is a non-match (error or empty
output), `inspectLoop` probes each reachable instance exactly once in order,
prints nothing, and reports not found. -/
theorem inspectLoop_noMatch (net : String → String → SSHEnv) (cid : String) :
    ∀ l : List InstanceData,
      (∀ inst ∈ l, inst.privateIP ≠ "" → probeNoMatch (probeResult net cid inst) = true) →
      (inspectLoop net cid l).1.calls = (reachable l).map (probeCall cid) ∧
      (inspectLoop net cid l).1.stdout = [] ∧
      (inspectLoop net cid l).2 = false := by
  intro l
  induction l with
  | nil => intro _; exact ⟨rfl, rfl, rfl⟩
  | cons inst rest ih =>
    intro h
    have hrest := ih (fun i hi hip => h i (List.mem_cons_of_mem _ hi) hip)
    rcases htf : inspectLoop net cid rest with ⟨⟨tc, ts, tl⟩, fb⟩
    rw [htf] at hrest
    obtain ⟨hc, hs, hf⟩ := hrest
    simp only at hc hs hf
    by_cases hip : inst.privateIP = ""
    · simp only [inspectLoop, hip, if_pos, htf, reachable, List.filter_cons,
        decide_not, ne_eq, hip, decide_True, not_true_eq_false, ite_false,
        Bool.false_eq_true]
      simp [reachable] at hc
      exact ⟨by simpa using hc, by simpa using hs, by simpa using hf⟩
    · have hnm := h inst (List.mem_cons_self _ _) hip
      unfold probeResult at hnm
      rcases hr : SSHCommand (net inst.privateIP (checkCmd cid)) (checkCmd cid) false false
        with e | out
      · rw [hr] at hnm
        simp only [inspectLoop, hip, if_neg, hr, htf]
        refine ⟨?_, ?_, ?_⟩ <;>
          simp [reachable, List.filter_cons, hip, probeCall, hc, hs, hf]
      · rw [hr] at hnm
        have hout : out = "" := by simpa [probeNoMatch] using hnm
        subst hout
        simp only [inspectLoop, hip, if_neg, hr, htf]
        refine ⟨?_, ?_, ?_⟩ <;>
          simp [reachable, List.filter_cons, hip, probeCall, hc, hs, hf]

/-- When every reachable instance's probe is a non-match, `logsLoop` probes
each reachable instance exactly once in order, prints nothing, and reports
not found. -/
theorem logsLoop_noMatch (net : String → String → SSHEnv)
    (stream : String → String → StreamEnv) (cid : String) :
    ∀ l : List InstanceData,
      (∀ inst ∈ l, inst.privateIP ≠ "" → probeNoMatch (probeResult net cid inst) = true) →
      (logsLoop net stream cid l).1.calls = (reachable l).map (probeCall cid) ∧
      (logsLoop net stream cid l).1.stdout = [] ∧
      (logsLoop net stream cid l).2 = false := by
  intro l
  induction l with
  | nil => intro _; exact ⟨rfl, rfl, rfl⟩
  | cons inst rest ih =>
    intro h
    have hrest := ih (fun i hi hip => h i (List.mem_cons_of_mem _ hi) hip)
    rcases htf : logsLoop net stream cid rest with ⟨⟨tc, ts, tl⟩, fb⟩
    rw [htf] at hrest
    obtain ⟨hc, hs, hf⟩ := hrest
    simp only at hc hs hf
    by_cases hip : inst.privateIP = ""
    · simp only [logsLoop, hip, if_pos, htf]
      simp [reachable] at hc
      exact ⟨by simpa [reachable, List.filter_cons, hip] using hc, by simpa using hs,
        by simpa using hf⟩
    · have hnm := h inst (List.mem_cons_self _ _) hip
      unfold probeResult at hnm
      rcases hr : SSHCommand (net inst.privateIP (checkCmd cid)) (checkCmd cid) false false
        with e | out
      · rw [hr] at hnm
        simp only [logsLoop, hip, if_neg, hr, htf]
        refine ⟨?_, ?_, ?_⟩ <;>
          simp [reachable, List.filter_cons, hip, probeCall, hc, hs, hf]
      · rw [hr] at hnm
        have hout : out = "" := by simpa [probeNoMatch] using hnm
        subst hout
        simp only [logsLoop, hip, if_neg, hr, htf]
        refine ⟨?_, ?_, ?_⟩ <;>
          simp [reachable, List.filter_cons, hip, probeCall, hc, hs, hf]

/-- When every reachable instance's probe is a non-match, `shellLoop` probes
each reachable instance exactly once in order, prints nothing, reports not
found, and leaves the terminal mode untouched. -/
theorem shellLoop_noMatch (net : String → String → SSHEnv)
    (ishellEnv : String → ShellEnv) (cid fullCommand : String) (m : TermMode) :
    ∀ l : List InstanceData,
      (∀ inst ∈ l, inst.privateIP ≠ "" → probeNoMatch (probeResult net cid inst) = true) →
      (shellLoop net ishellEnv cid fullCommand m l).1.calls =
        (reachable l).map (probeCall cid) ∧
      (shellLoop net ishellEnv cid fullCommand m l).1.stdout = [] ∧
      (shellLoop net ishellEnv cid fullCommand m l).2.1 = m ∧
      (shellLoop net ishellEnv cid fullCommand m l).2.2 = false := by
  intro l
  induction l with
  | nil => intro _; exact ⟨rfl, rfl, rfl, rfl⟩
  | cons inst rest ih =>
    intro h
    have hrest := ih (fun i hi hip => h i (List.mem_cons_of_mem _ hi) hip)
    rcases htf : shellLoop net ishellEnv cid fullCommand m rest with ⟨⟨tc, ts, tl⟩, m2, fb⟩
    rw [htf] at hrest
    obtain ⟨hc, hs, hm, hf⟩ := hrest
    simp only at hc hs hm hf
    by_cases hip : inst.privateIP = ""
    · simp only [shellLoop, hip, if_pos, htf]
      simp [reachable] at hc
      exact ⟨by simpa [reachable, List.filter_cons, hip] using hc, by simpa using hs,
        by simpa using hm, by simpa using hf⟩
    · have hnm := h inst (List.mem_cons_self _ _) hip
      unfold probeResult at hnm
      rcases hr : SSHCommand (net inst.privateIP (checkCmd cid)) (checkCmd cid) false false
        with e | out
      · rw [hr] at hnm
        simp only [shellLoop, hip, if_neg, hr, htf]
        refine ⟨?_, ?_, ?_, ?_⟩ <;>
          simp [reachable, List.filter_cons, hip, probeCall, hc, hs, hm, hf]
      · rw [hr] at hnm
        have hout : out = "" := by simpa [probeNoMatch] using hnm
        subst hout
        simp only [shellLoop, hip, if_neg, hr, htf]
        refine ⟨?_, ?_, ?_, ?_⟩ <;>
          simp [reachable, List.filter_cons, hip, probeCall, hc, hs, hm, hf]

/-- Every call `inspectLoop` issues has `ignoreExitCode=false` and targets the
non-empty private IP of one of the traversed instances. -/
theorem inspectLoop_calls_spec (net : String → String → SSHEnv) (cid : String) :
    ∀ l : List InstanceData, ∀ c ∈ (inspectLoop net cid l).1.calls,
      c.ignoresExitCode = false ∧ ∃ i ∈ l, i.privateIP ≠ "" ∧ c.host = i.privateIP := by
  intro l
  induction l with
  | nil => intro c hc; simp [inspectLoop] at hc
  | cons inst rest ih =>
    intro c hc
    rcases htf : inspectLoop net cid rest with ⟨⟨tc, ts, tl⟩, fb⟩
    replace ih : ∀ c ∈ tc, Call.ignoresExitCode c = false ∧
        ∃ i ∈ rest, i.privateIP ≠ "" ∧ c.host = i.privateIP := by
      simpa [htf] using ih
    simp only [inspectLoop, htf] at hc
    split at hc
    · obtain ⟨h1, i, hi, h2, h3⟩ := ih c hc
      exact ⟨h1, i, List.mem_cons_of_mem _ hi, h2, h3⟩
    · rename_i hip
      split at hc
      · simp only [List.mem_cons] at hc
        rcases hc with rfl | hc
        · exact ⟨rfl, inst, List.mem_cons_self _ _, hip, rfl⟩
        · obtain ⟨h1, i, hi, h2, h3⟩ := ih c hc
          exact ⟨h1, i, List.mem_cons_of_mem _ hi, h2, h3⟩
      · split at hc
        · simp only [List.mem_cons] at hc
          rcases hc with rfl | hc
          · exact ⟨rfl, inst, List.mem_cons_self _ _, hip, rfl⟩
          · obtain ⟨h1, i, hi, h2, h3⟩ := ih c hc
            exact ⟨h1, i, List.mem_cons_of_mem _ hi, h2, h3⟩
        · split at hc
          · simp only [List.mem_cons] at hc
            rcases hc with rfl | rfl | hc
            · exact ⟨rfl, inst, List.mem_cons_self _ _, hip, rfl⟩
            · exact ⟨rfl, inst, List.mem_cons_self _ _, hip, rfl⟩
            · obtain ⟨h1, i, hi, h2, h3⟩ := ih c hc
              exact ⟨h1, i, List.mem_cons_of_mem _ hi, h2, h3⟩
          · split at hc
            · simp only [List.mem_cons] at hc
              rcases hc with rfl | rfl | hc
              · exact ⟨rfl, inst, List.mem_cons_self _ _, hip, rfl⟩
              · exact ⟨rfl, inst, List.mem_cons_self _ _, hip, rfl⟩
              · simp at hc
            · simp only [List.mem_cons] at hc
              rcases hc with rfl | rfl | hc
              · exact ⟨rfl, inst, List.mem_cons_self _ _, hip, rfl⟩
              · exact ⟨rfl, inst, List.mem_cons_self _ _, hip, rfl⟩
              · obtain ⟨h1, i, hi, h2, h3⟩ := ih c hc
                exact ⟨h1, i, List.mem_cons_of_mem _ hi, h2, h3⟩

/-- Every call `logsLoop` issues has `ignoreExitCode=false` (streaming calls
carry no such flag) and targets the non-empty private IP of one of the
traversed instances. -/
theorem logsLoop_calls_spec (net : String → String → SSHEnv)
    (stream : String → String → StreamEnv) (cid : String) :
    ∀ l : List InstanceData, ∀ c ∈ (logsLoop net stream cid l).1.calls,
      c.ignoresExitCode = false ∧ ∃ i ∈ l, i.privateIP ≠ "" ∧ c.host = i.privateIP := by
  intro l
  induction l with
  | nil => intro c hc; simp [logsLoop] at hc
  | cons inst rest ih =>
    intro c hc
    rcases htf : logsLoop net stream cid rest with ⟨⟨tc, ts, tl⟩, fb⟩
    replace ih : ∀ c ∈ tc, Call.ignoresExitCode c = false ∧
        ∃ i ∈ rest, i.privateIP ≠ "" ∧ c.host = i.privateIP := by
      simpa [htf] using ih
    simp only [logsLoop, htf] at hc
    split at hc
    · obtain ⟨h1, i, hi, h2, h3⟩ := ih c hc
      exact ⟨h1, i, List.mem_cons_of_mem _ hi, h2, h3⟩
    · rename_i hip
      split at hc
      · simp only [List.mem_cons] at hc
        rcases hc with rfl | hc
        · exact ⟨rfl, inst, List.mem_cons_self _ _, hip, rfl⟩
        · obtain ⟨h1, i, hi, h2, h3⟩ := ih c hc
          exact ⟨h1, i, List.mem_cons_of_mem _ hi, h2, h3⟩
      · split at hc
        · simp only [List.mem_cons] at hc
          rcases hc with rfl | hc
          · exact ⟨rfl, inst, List.mem_cons_self _ _, hip, rfl⟩
          · obtain ⟨h1, i, hi, h2, h3⟩ := ih c hc
            exact ⟨h1, i, List.mem_cons_of_mem _ hi, h2, h3⟩
        · split at hc
          · simp only [List.mem_cons] at hc
            rcases hc with rfl | rfl | hc
            · exact ⟨rfl, inst, List.mem_cons_self _ _, hip, rfl⟩
            · exact ⟨rfl, inst, List.mem_cons_self _ _, hip, rfl⟩
            · obtain ⟨h1, i, hi, h2, h3⟩ := ih c hc
              exact ⟨h1, i, List.mem_cons_of_mem _ hi, h2, h3⟩
          · simp only [List.mem_cons] at hc
            rcases hc with rfl | rfl | hc
            · exact ⟨rfl, inst, List.mem_cons_self _ _, hip, rfl⟩
            · exact ⟨rfl, inst, List.mem_cons_self _ _, hip, rfl⟩
            · simp at hc

/-- Every call `shellLoop` issues has `ignoreExitCode=false` (interactive
calls carry no such flag) and targets the non-empty private IP of one of the
traversed instances. -/
theorem shellLoop_calls_spec (net : String → String → SSHEnv)
    (ishellEnv : String → ShellEnv) (cid fullCommand : String) :
    ∀ (m : TermMode) (l : List InstanceData),
      ∀ c ∈ (shellLoop net ishellEnv cid fullCommand m l).1.calls,
      c.ignoresExitCode = false ∧ ∃ i ∈ l, i.privateIP ≠ "" ∧ c.host = i.privateIP := by
  intro m l
  induction l generalizing m with
  | nil => intro c hc; simp [shellLoop] at hc
  | cons inst rest ih =>
    intro c hc
    simp only [shellLoop] at hc
    split at hc
    · obtain ⟨h1, i, hi, h2, h3⟩ := ih m c hc
      exact ⟨h1, i, List.mem_cons_of_mem _ hi, h2, h3⟩
    · rename_i hip
      split at hc
      · simp only [List.mem_cons] at hc
        rcases hc with rfl | hc
        · exact ⟨rfl, inst, List.mem_cons_self _ _, hip, rfl⟩
        · obtain ⟨h1, i, hi, h2, h3⟩ := ih m c hc
          exact ⟨h1, i, List.mem_cons_of_mem _ hi, h2, h3⟩
      · split at hc
        · split at hc
          · simp only [List.mem_cons] at hc
            rcases hc with rfl | rfl | hc
            · exact ⟨rfl, inst, List.mem_cons_self _ _, hip, rfl⟩
            · exact ⟨rfl, inst, List.mem_cons_self _ _, hip, rfl⟩
            · obtain ⟨h1, i, hi, h2, h3⟩ := ih _ c hc
              exact ⟨h1, i, List.mem_cons_of_mem _ hi, h2, h3⟩
          · simp only [List.mem_cons] at hc
            rcases hc with rfl | rfl | hc
            · exact ⟨rfl, inst, List.mem_cons_self _ _, hip, rfl⟩
            · exact ⟨rfl, inst, List.mem_cons_self _ _, hip, rfl⟩
            · simp at hc
        · simp only [List.mem_cons] at hc
          rcases hc with rfl | hc
          · exact ⟨rfl, inst, List.mem_cons_self _ _, hip, rfl⟩
          · obtain ⟨h1, i, hi, h2, h3⟩ := ih m c hc
            exact ⟨h1, i, List.mem_cons_of_mem _ hi, h2, h3⟩

/-- Probe call `find` records for an instance. -/
def findProbeCall (searchTerm : String) (inst : InstanceData) : Call :=
  Call.sshCommand inst.privateIP (findCmd searchTerm) false true

/-- Rows `find` prints for one reachable instance: the formatted lines of the
probe output on success, nothing on error. -/
def findRowsOf (net : String → String → SSHEnv) (searchTerm : String)
    (inst : InstanceData) : List Row :=
  match SSHCommand (net inst.privateIP (findCmd searchTerm)) (findCmd searchTerm)
      false true with
  | .ok output => rowsOfOutput inst.name output
  | .error _ => []

/-- `findGo` probes every reachable instance exactly once, in order, with
`ignoreExitCode=true`, never stopping early, and its rows are exactly the
per-instance rows in order. -/
theorem findGo_spec (net : String → String → SSHEnv) (searchTerm : String) :
    ∀ l : List InstanceData,
      (findGo net searchTerm l).1 = (reachable l).map (findProbeCall searchTerm) ∧
      (findGo net searchTerm l).2.1 = ((reachable l).map (findRowsOf net searchTerm)).flatten := by
  intro l
  induction l with
  | nil => exact ⟨rfl, rfl⟩
  | cons inst rest ih =>
    rcases htf : findGo net searchTerm rest with ⟨cs, rows, ls⟩
    rw [htf] at ih
    obtain ⟨hc, hr⟩ := ih
    simp only at hc hr
    by_cases hip : inst.privateIP = ""
    · simp only [findGo, hip, if_pos, htf]
      constructor
      · simpa [reachable, List.filter_cons, hip] using hc
      · simpa [reachable, List.filter_cons, hip] using hr
    · rcases hrr : SSHCommand (net inst.privateIP (findCmd searchTerm)) (findCmd searchTerm)
        false true with e | out
      · simp only [findGo, hip, if_neg, hrr, htf]
        constructor
        · simp [reachable, List.filter_cons, hip, findProbeCall, hc]
        · simp [reachable, List.filter_cons, hip, findRowsOf, hrr, hr]
      · simp only [findGo, hip, if_neg, hrr, htf]
        constructor
        · simp [reachable, List.filter_cons, hip, findProbeCall, hc]
        · simp [reachable, List.filter_cons, hip, findRowsOf, hrr, hr]

/-- When the first instance is reachable, its probe output is non-empty and
its `docker inspect` succeeds with non-empty output, `inspectLoop` acts on
that instance and stops: the remaining instances are neither probed nor
acted on. -/
theorem inspectLoop_stop (net : String → String → SSHEnv) (cid : String)
    (inst : InstanceData) (rest : List InstanceData) (out j : String)
    (hip : inst.privateIP ≠ "")
    (hpr : probeResult net cid inst = .ok out) (hout : out ≠ "")
    (hact : SSHCommand (net inst.privateIP (inspectCmd cid)) (inspectCmd cid) false false =
      .ok j) (hj : j ≠ "") :
    inspectLoop net cid (inst :: rest) =
      (⟨[probeCall cid inst, Call.sshCommand inst.privateIP (inspectCmd cid) false false],
        ["---------- Inspect output from " ++ inst.name ++ " ----------", j], []⟩, true) := by
  unfold probeResult at hpr
  simp [inspectLoop, hip, hpr, hout, hact, hj, probeCall]

/-- When the first instance is reachable, its probe output is non-empty but
its `docker inspect` fails, `inspectLoop` logs the error and continues with
the remaining instances. -/
theorem inspectLoop_actionError (net : String → String → SSHEnv) (cid : String)
    (inst : InstanceData) (rest : List InstanceData) (out e : String)
    (hip : inst.privateIP ≠ "")
    (hpr : probeResult net cid inst = .ok out) (hout : out ≠ "")
    (hact : SSHCommand (net inst.privateIP (inspectCmd cid)) (inspectCmd cid) false false =
      .error e) :
    (inspectLoop net cid (inst :: rest)).1.calls =
      probeCall cid inst :: Call.sshCommand inst.privateIP (inspectCmd cid) false false ::
        (inspectLoop net cid rest).1.calls ∧
    (inspectLoop net cid (inst :: rest)).1.logs =
      ("Error executing inspect on instance " ++ inst.instanceID ++ ": " ++ e) ::
        (inspectLoop net cid rest).1.logs ∧
    (inspectLoop net cid (inst :: rest)).2 = (inspectLoop net cid rest).2 := by
  unfold probeResult at hpr
  refine ⟨?_, ?_, ?_⟩ <;> simp [inspectLoop, hip, hpr, hout, hact, probeCall]

/-- When the first instance is reachable, its probe output is non-empty and
the log stream succeeds, `logsLoop` acts on that instance and stops. -/
theorem logsLoop_stop (net : String → String → SSHEnv)
    (stream : String → String → StreamEnv) (cid : String)
    (inst : InstanceData) (rest : List InstanceData) (out : String)
    (hip : inst.privateIP ≠ "")
    (hpr : probeResult net cid inst = .ok out) (hout : out ≠ "")
    (hact : SSHCommandStream (stream inst.privateIP (logCmd cid)) (logCmd cid) = .ok ()) :
    logsLoop net stream cid (inst :: rest) =
      (⟨[probeCall cid inst, Call.sshStream inst.privateIP (logCmd cid)],
        ["Attempting to follow logs on instance " ++ inst.instanceID ++
          " (" ++ inst.name ++ ")"], []⟩, true) := by
  unfold probeResult at hpr
  simp [logsLoop, hip, hpr, hout, hact, probeCall]

/-- When the first instance is reachable, its probe output is non-empty but
the log stream fails, `logsLoop` logs the error and continues with the
remaining instances. -/
theorem logsLoop_actionError (net : String → String → SSHEnv)
    (stream : String → String → StreamEnv) (cid : String)
    (inst : InstanceData) (rest : List InstanceData) (out e : String)
    (hip : inst.privateIP ≠ "")
    (hpr : probeResult net cid inst = .ok out) (hout : out ≠ "")
    (hact : SSHCommandStream (stream inst.privateIP (logCmd cid)) (logCmd cid) = .error e) :
    (logsLoop net stream cid (inst :: rest)).1.calls =
      probeCall cid inst :: Call.sshStream inst.privateIP (logCmd cid) ::
        (logsLoop net stream cid rest).1.calls ∧
    (logsLoop net stream cid (inst :: rest)).1.logs =
      ("Error executing command on instance " ++ inst.instanceID ++ ": " ++ e) ::
        (logsLoop net stream cid rest).1.logs ∧
    (logsLoop net stream cid (inst :: rest)).2 = (logsLoop net stream cid rest).2 := by
  unfold probeResult at hpr
  refine ⟨?_, ?_, ?_⟩ <;> simp [logsLoop, hip, hpr, hout, hact, probeCall]

/-- When the first instance is reachable, its probe output is non-empty and
the interactive session succeeds, `shellLoop` acts on that instance and
stops. -/
theorem shellLoop_stop (net : String → String → SSHEnv)
    (ishellEnv : String → ShellEnv) (cid fullCommand : String) (m m2 : TermMode)
    (evs : List SEvent) (inst : InstanceData) (rest : List InstanceData) (out : String)
    (hip : inst.privateIP ≠ "")
    (hpr : probeResult net cid inst = .ok out) (hout : out ≠ "")
    (hact : SSHInteractiveShell (ishellEnv inst.privateIP) cid fullCommand m =
      (m2, evs, .ok ())) :
    shellLoop net ishellEnv cid fullCommand m (inst :: rest) =
      (⟨[probeCall cid inst, Call.interactiveShell inst.privateIP cid fullCommand],
        ["Container " ++ cid ++ " found on instance " ++ inst.instanceID ++
          " (" ++ inst.name ++ "). Starting shell session..."], []⟩, m2, true) := by
  unfold probeResult at hpr
  simp [shellLoop, hip, hpr, hout, hact, probeCall]

/-- When the first instance is reachable, its probe output is non-empty but
the interactive session fails, `shellLoop` logs the error and continues with
the remaining instances. -/
theorem shellLoop_actionError (net : String → String → SSHEnv)
    (ishellEnv : String → ShellEnv) (cid fullCommand : String) (m m2 : TermMode)
    (evs : List SEvent) (inst : InstanceData) (rest : List InstanceData) (out e : String)
    (hip : inst.privateIP ≠ "")
    (hpr : probeResult net cid inst = .ok out) (hout : out ≠ "")
    (hact : SSHInteractiveShell (ishellEnv inst.privateIP) cid fullCommand m =
      (m2, evs, .error e)) :
    (shellLoop net ishellEnv cid fullCommand m (inst :: rest)).1.calls =
      probeCall cid inst :: Call.interactiveShell inst.privateIP cid fullCommand ::
        (shellLoop net ishellEnv cid fullCommand m2 rest).1.calls ∧
    (shellLoop net ishellEnv cid fullCommand m (inst :: rest)).1.logs =
      ("Error starting interactive shell session: " ++ e) ::
        (shellLoop net ishellEnv cid fullCommand m2 rest).1.logs ∧
    (shellLoop net ishellEnv cid fullCommand m (inst :: rest)).2.2 =
      (shellLoop net ishellEnv cid fullCommand m2 rest).2.2 := by
  unfold probeResult at hpr
  refine ⟨?_, ?_, ?_⟩ <;> simp [shellLoop, hip, hpr, hout, hact, probeCall]

/-- `inspectContainer` returns no error whenever inventory resolution
succeeded, found or not. -/
theorem inspectContainer_ok (l : List InstanceData) (net : String → String → SSHEnv)
    (cid : String) : (inspectContainer (.ok l) net cid).2 = .ok () := by
  simp only [inspectContainer]
  rcases h : inspectLoop net cid l with ⟨t, f⟩
  cases f <;> simp

/-- `followContainerLogs` returns no error whenever inventory resolution
succeeded, found or not. -/
theorem followContainerLogs_ok (l : List InstanceData) (net : String → String → SSHEnv)
    (stream : String → String → StreamEnv) (cid : String) :
    (followContainerLogs (.ok l) net stream cid).2 = .ok () := by
  simp only [followContainerLogs]
  rcases h : logsLoop net stream cid l with ⟨t, f⟩
  cases f <;> simp

/-- `shell` returns no error whenever inventory resolution succeeded, found
or not. -/
theorem shell_ok (l : List InstanceData) (net : String → String → SSHEnv)
    (ishellEnv : String → ShellEnv) (cid : String) (args : List String) (m : TermMode) :
    (shell (.ok l) net ishellEnv cid args m).2.2 = .ok () := by
  simp only [shell]
  rcases h : shellLoop net ishellEnv cid (shellFullCommand args) m l with ⟨t, m2, f⟩
  cases f <;> simp

/-- The calls of `inspectContainer` are exactly those of its loop. -/
theorem inspectContainer_calls (l : List InstanceData) (net : String → String → SSHEnv)
    (cid : String) :
    (inspectContainer (.ok l) net cid).1.calls = (inspectLoop net cid l).1.calls := by
  simp only [inspectContainer]
  rcases h : inspectLoop net cid l with ⟨t, f⟩
  cases f <;> simp

/-- The calls of `followContainerLogs` are exactly those of its loop. -/
theorem followContainerLogs_calls (l : List InstanceData) (net : String → String → SSHEnv)
    (stream : String → String → StreamEnv) (cid : String) :
    (followContainerLogs (.ok l) net stream cid).1.calls =
      (logsLoop net stream cid l).1.calls := by
  simp only [followContainerLogs]
  rcases h : logsLoop net stream cid l with ⟨t, f⟩
  cases f <;> simp

/-- The calls of `shell` are exactly those of its loop. -/
theorem shell_calls (l : List InstanceData) (net : String → String → SSHEnv)
    (ishellEnv : String → ShellEnv) (cid : String) (args : List String) (m : TermMode) :
    (shell (.ok l) net ishellEnv cid args m).1.calls =
      (shellLoop net ishellEnv cid (shellFullCommand args) m l).1.calls := by
  simp only [shell]
  rcases h : shellLoop net ishellEnv cid (shellFullCommand args) m l with ⟨t, m2, f⟩
  cases f <;> simp

/-- The log messages of `inspectContainer` are exactly those of its loop. -/
theorem inspectContainer_logs (l : List InstanceData) (net : String → String → SSHEnv)
    (cid : String) :
    (inspectContainer (.ok l) net cid).1.logs = (inspectLoop net cid l).1.logs := by
  simp only [inspectContainer]
  rcases h : inspectLoop net cid l with ⟨t, f⟩
  cases f <;> simp

/-- The log messages of `followContainerLogs` are exactly those of its
loop. -/
theorem followContainerLogs_logs (l : List InstanceData) (net : String → String → SSHEnv)
    (stream : String → String → StreamEnv) (cid : String) :
    (followContainerLogs (.ok l) net stream cid).1.logs =
      (logsLoop net stream cid l).1.logs := by
  simp only [followContainerLogs]
  rcases h : logsLoop net stream cid l with ⟨t, f⟩
  cases f <;> simp

/-- The log messages of `shell` are exactly those of its loop. -/
theorem shell_logs (l : List InstanceData) (net : String → String → SSHEnv)
    (ishellEnv : String → ShellEnv) (cid : String) (args : List String) (m : TermMode) :
    (shell (.ok l) net ishellEnv cid args m).1.logs =
      (shellLoop net ishellEnv cid (shellFullCommand args) m l).1.logs := by
  simp only [shell]
  rcases h : shellLoop net ishellEnv cid (shellFullCommand args) m l with ⟨t, m2, f⟩
  cases f <;> simp

/-- Prepending instances whose probes all miss leaves `inspectLoop`'s
behavior on the suffix unchanged, after probing each reachable prefix
instance once. -/
theorem inspectLoop_append_noMatch (net : String → String → SSHEnv) (cid : String)
    (l1 l2 : List InstanceData)
    (h : ∀ i ∈ l1, i.privateIP ≠ "" → probeNoMatch (probeResult net cid i) = true) :
    (inspectLoop net cid (l1 ++ l2)).1.calls =
      (reachable l1).map (probeCall cid) ++ (inspectLoop net cid l2).1.calls ∧
    (inspectLoop net cid (l1 ++ l2)).1.stdout = (inspectLoop net cid l2).1.stdout ∧
    (inspectLoop net cid (l1 ++ l2)).2 = (inspectLoop net cid l2).2 := by
  induction l1 with
  | nil => exact ⟨rfl, rfl, rfl⟩
  | cons inst rest ih =>
    have hrest := ih (fun i hi hip => h i (List.mem_cons_of_mem _ hi) hip)
    obtain ⟨hc, hs, hf⟩ := hrest
    by_cases hip : inst.privateIP = ""
    · simp only [List.cons_append, inspectLoop, hip, if_pos]
      refine ⟨?_, ?_, ?_⟩ <;> simp [reachable, List.filter_cons, hip, hc, hs, hf]
    · have hnm := h inst (List.mem_cons_self _ _) hip
      unfold probeResult at hnm
      rcases hr : SSHCommand (net inst.privateIP (checkCmd cid)) (checkCmd cid) false false
        with e | out
      · rw [hr] at hnm
        simp only [List.cons_append, inspectLoop, hip, if_neg, hr]
        refine ⟨?_, ?_, ?_⟩ <;>
          simp [reachable, List.filter_cons, hip, probeCall, hc, hs, hf]
      · rw [hr] at hnm
        have hout : out = "" := by simpa [probeNoMatch] using hnm
        subst hout
        simp only [List.cons_append, inspectLoop, hip, if_neg, hr]
        refine ⟨?_, ?_, ?_⟩ <;>
          simp [reachable, List.filter_cons, hip, probeCall, hc, hs, hf]

/-- Prepending instances whose probes all miss leaves `logsLoop`'s behavior
on the suffix unchanged, after probing each reachable prefix instance
once. -/
theorem logsLoop_append_noMatch (net : String → String → SSHEnv)
    (stream : String → String → StreamEnv) (cid : String) (l1 l2 : List InstanceData)
    (h : ∀ i ∈ l1, i.privateIP ≠ "" → probeNoMatch (probeResult net cid i) = true) :
    (logsLoop net stream cid (l1 ++ l2)).1.calls =
      (reachable l1).map (probeCall cid) ++ (logsLoop net stream cid l2).1.calls ∧
    (logsLoop net stream cid (l1 ++ l2)).1.stdout = (logsLoop net stream cid l2).1.stdout ∧
    (logsLoop net stream cid (l1 ++ l2)).2 = (logsLoop net stream cid l2).2 := by
  induction l1 with
  | nil => exact ⟨rfl, rfl, rfl⟩
  | cons inst rest ih =>
    have hrest := ih (fun i hi hip => h i (List.mem_cons_of_mem _ hi) hip)
    obtain ⟨hc, hs, hf⟩ := hrest
    by_cases hip : inst.privateIP = ""
    · simp only [List.cons_append, logsLoop, hip, if_pos]
      refine ⟨?_, ?_, ?_⟩ <;> simp [reachable, List.filter_cons, hip, hc, hs, hf]
    · have hnm := h inst (List.mem_cons_self _ _) hip
      unfold probeResult at hnm
      rcases hr : SSHCommand (net inst.privateIP (checkCmd cid)) (checkCmd cid) false false
        with e | out
      · rw [hr] at hnm
        simp only [List.cons_append, logsLoop, hip, if_neg, hr]
        refine ⟨?_, ?_, ?_⟩ <;>
          simp [reachable, List.filter_cons, hip, probeCall, hc, hs, hf]
      · rw [hr] at hnm
        have hout : out = "" := by simpa [probeNoMatch] using hnm
        subst hout
        simp only [List.cons_append, logsLoop, hip, if_neg, hr]
        refine ⟨?_, ?_, ?_⟩ <;>
          simp [reachable, List.filter_cons, hip, probeCall, hc, hs, hf]

/-- Prepending instances whose probes all miss leaves `shellLoop`'s behavior
on the suffix unchanged (including the terminal mode), after probing each
reachable prefix instance once. -/
theorem shellLoop_append_noMatch (net : String → String → SSHEnv)
    (ishellEnv : String → ShellEnv) (cid fullCommand : String) (m : TermMode)
    (l1 l2 : List InstanceData)
    (h : ∀ i ∈ l1, i.privateIP ≠ "" → probeNoMatch (probeResult net cid i) = true) :
    (shellLoop net ishellEnv cid fullCommand m (l1 ++ l2)).1.calls =
      (reachable l1).map (probeCall cid) ++
        (shellLoop net ishellEnv cid fullCommand m l2).1.calls ∧
    (shellLoop net ishellEnv cid fullCommand m (l1 ++ l2)).1.stdout =
      (shellLoop net ishellEnv cid fullCommand m l2).1.stdout ∧
    (shellLoop net ishellEnv cid fullCommand m (l1 ++ l2)).2 =
      (shellLoop net ishellEnv cid fullCommand m l2).2 := by
  induction l1 with
  | nil => exact ⟨rfl, rfl, rfl⟩
  | cons inst rest ih =>
    have hrest := ih (fun i hi hip => h i (List.mem_cons_of_mem _ hi) hip)
    obtain ⟨hc, hs, hf⟩ := hrest
    by_cases hip : inst.privateIP = ""
    · simp only [List.cons_append, shellLoop, hip, if_pos]
      refine ⟨?_, ?_, ?_⟩ <;> simp [reachable, List.filter_cons, hip, hc, hs, hf]
    · have hnm := h inst (List.mem_cons_self _ _) hip
      unfold probeResult at hnm
      rcases hr : SSHCommand (net inst.privateIP (checkCmd cid)) (checkCmd cid) false false
        with e | out
      · rw [hr] at hnm
        simp only [List.cons_append, shellLoop, hip, if_neg, hr]
        refine ⟨?_, ?_, ?_⟩ <;>
          simp [reachable, List.filter_cons, hip, probeCall, hc, hs, hf]
      · rw [hr] at hnm
        have hout : out = "" := by simpa [probeNoMatch] using hnm
        subst hout
        simp only [List.cons_append, shellLoop, hip, if_neg, hr]
        refine ⟨?_, ?_, ?_⟩ <;>
          simp [reachable, List.filter_cons, hip, probeCall, hc, hs, hf]

/-- Every row formatted from one instance's output carries that instance's
name in its EC2-instance column. -/
theorem rowsOfOutput_name (n output : String) :
    ∀ r ∈ rowsOfOutput n output, r.ec2Instance = n := by
  intro r hr
  simp only [rowsOfOutput, List.mem_filterMap] at hr
  obtain ⟨line, _hline, hsome⟩ := hr
  split at hsome
  · simp at hsome
  · split at hsome
    · obtain rfl := Option.some.inj hsome
      rfl
    · simp at hsome

/-- The command-execution phase of `SSHInteractiveShell` only emits
run/shell events, never terminal-mode or pty events. -/
theorem shellRunPhase_events (env : ShellEnv) (fc : String) :
    ∀ e ∈ (shellRunPhase env fc).1,
      (∃ c, e = SEvent.ranCommand c) ∨ e = SEvent.startedShell := by
  intro e he
  unfold shellRunPhase at he
  split at he
  · split at he <;> simp at he <;> exact Or.inl ⟨_, he⟩
  · split at he
    · simp at he
    · split at he <;> simp at he <;> exact Or.inr he

/-! ### Concrete fixtures for witnesses and counterexamples -/

/-- Example running instance `web-1` at 10.0.0.5. -/
def inst1 : InstanceData :=
  ⟨"i-0001", "web-1", "running", "t3.large", "10.0.0.5"⟩

/-- Example running instance `web-2` at 10.0.0.9. -/
def inst2 : InstanceData :=
  ⟨"i-0002", "web-2", "running", "t3.large", "10.0.0.9"⟩

/-- SSH environment whose remote command succeeds with the given stdout. -/
def okSSH (out : String) : SSHEnv :=
  ⟨.ok "user", .ok (), .ok (), .ok (), none, out, ""⟩

/-- SSH environment whose remote command exits non-zero, having written the
given stdout. -/
def exitSSH (out : String) : SSHEnv :=
  ⟨.ok "user", .ok (), .ok (), .ok (), some (RunError.exitError 1), out, ""⟩

/-- SSH environment whose remote run fails with a non-exit error. -/
def failSSH (msg : String) : SSHEnv :=
  ⟨.ok "user", .ok (), .ok (), .ok (), some (RunError.otherError msg), "", ""⟩

/-- SSH environment where dialing the SSH agent fails. -/
def noAgentSSH : SSHEnv :=
  ⟨.ok "user", .error "no socket", .ok (), .ok (), none, "", ""⟩

/-- Network where every remote command succeeds with empty output. -/
def netOkEmpty : String → String → SSHEnv := fun _ _ => okSSH ""

/-- Network where every probe command fails with a non-exit error. -/
def netAllFail : String → String → SSHEnv := fun _ _ => failSSH "unreachable"

/-- Stream environment whose remote command succeeds. -/
def okStream : StreamEnv := ⟨.ok (), .ok (), .ok (), .ok (), none⟩

/-- Stream environment whose remote command fails. -/
def failStream (msg : String) : StreamEnv :=
  ⟨.ok (), .ok (), .ok (), .ok (), some (RunError.otherError msg)⟩

/-- Interactive-shell environment on a real terminal where every step
succeeds; the local terminal is 80 columns by 24 rows. -/
def okShellEnv : ShellEnv :=
  ⟨.ok (), .ok (), .ok (), .ok (), true, .ok (), .ok (80, 24), .ok (), none, .ok (), none⟩

/-! ### Claim theorems -/

/-- C3: for every host environment and command, the remote executor with
`ignoreExitCode=true` returns the captured stdout and no error when the
remote command exits non-zero (it never fails with a remote-execution
error), while non-exit failures — agent, connection, or session-channel
failures — still return an error. -/
theorem C3_ignoreExitCode_semantics (env : SSHEnv) (cmd : String) :
    (∀ u code, env.currentUser = .ok u → env.agentDial = .ok () → env.dial = .ok () →
      env.newSession = .ok () → env.runResult = some (RunError.exitError code) →
      SSHCommand env cmd false true = .ok env.stdout) ∧
    (∀ e, env.agentDial = .error e →
      ∃ msg, SSHCommand env cmd false true = .error msg) ∧
    (∀ u e, env.currentUser = .ok u → env.agentDial = .ok () → env.dial = .error e →
      ∃ msg, SSHCommand env cmd false true = .error msg) ∧
    (∀ u e, env.currentUser = .ok u → env.agentDial = .ok () → env.dial = .ok () →
      env.newSession = .error e →
      ∃ msg, SSHCommand env cmd false true = .error msg) := by
  refine ⟨?_, ?_, ?_, ?_⟩
  · intros; simp [SSHCommand, *]
  · intro e he
    rcases hu : env.currentUser with eu | u <;> simp [SSHCommand, hu, he]
  · intros; simp [SSHCommand, *]
  · intros; simp [SSHCommand, *]

/-- C3 witness: a remote command that exits non-zero under
`ignoreExitCode=true` yields its captured stdout with no error; an
agent-dial failure yields an error. -/
theorem C3_witness :
    SSHCommand (exitSSH "abc123\n") "cmd0" false true = .ok "abc123\n" ∧
    ∃ msg, SSHCommand noAgentSSH "cmd0" false true = .error msg :=
  ⟨(C3_ignoreExitCode_semantics (exitSSH "abc123\n") "cmd0").1 "user" 1 rfl rfl rfl rfl rfl,
   (C3_ignoreExitCode_semantics noAgentSSH "cmd0").2.1 "no socket" rfl⟩

/-- C10: every cloud API call issued by `ListECSClusters` and
`FetchEC2InstanceData` goes through a session whose region is the hard-coded
"us-west-2"; the profile argument (from AWS_PROFILE) selects only the
credentials profile and never changes the region. -/
theorem C10_region_hardcoded (env : AWSEnv) (profile cluster : String) (onlyRunning : Bool) :
    (∀ c ∈ (listECSClusters env profile).1,
      c.region = "us-west-2" ∧ c.profile = profile) ∧
    (∀ c ∈ (fetchEC2InstanceData env cluster profile onlyRunning).1,
      c.region = "us-west-2" ∧ c.profile = profile) := by
  constructor
  · intro c hc
    unfold listECSClusters newSessionWithOptions at hc
    rcases h : env.listClusters with e | arns <;> rw [h] at hc <;> simp at hc <;>
      subst hc <;> exact ⟨rfl, rfl⟩
  · intro c hc
    unfold fetchEC2InstanceData newSessionWithOptions at hc
    rcases h1 : env.listContainerInstances cluster with e | arns <;> rw [h1] at hc
    · simp at hc; subst hc; exact ⟨rfl, rfl⟩
    · by_cases he : arns.isEmpty
      · simp only [he, if_true, List.mem_singleton] at hc
        subst hc; exact ⟨rfl, rfl⟩
      · simp only [he, if_false, Bool.false_eq_true] at hc
        rcases h2 : env.describeContainerInstances cluster arns with e2 | ids <;>
          rw [h2] at hc
        · simp at hc
          rcases hc with rfl | rfl <;> exact ⟨rfl, rfl⟩
        · rcases h3 : env.describeInstances ids with e3 | res <;> simp [h3] at hc <;>
            rcases hc with rfl | rfl | rfl <;> exact ⟨rfl, rfl⟩

/-- C10 witness: with a concrete API environment and the profile "staging",
the single call issued by the cluster listing is in region "us-west-2" with
profile "staging". -/
theorem C10_witness :
    (APICall.listClusters "us-west-2" "staging").region = "us-west-2" ∧
    (APICall.listClusters "us-west-2" "staging").profile = "staging" :=
  (C10_region_hardcoded
    ⟨.ok ["arn:aws:ecs:us-west-2:1:cluster/staging"], fun _ => .ok [],
      fun _ _ => .ok [], fun _ => .ok []⟩ "staging" "staging" true).1
    (APICall.listClusters "us-west-2" "staging") (by decide)

/-- The calls and rows of `find` are exactly those of its loop. -/
theorem find_components (l : List InstanceData) (net : String → String → SSHEnv)
    (searchTerm : String) :
    (find (.ok l) net searchTerm).1 = (findGo net searchTerm l).1 ∧
    (find (.ok l) net searchTerm).2.1 = (findGo net searchTerm l).2.1 := by
  simp only [find]
  rcases h : findGo net searchTerm l with ⟨cs, rows, ls⟩
  simp

/-- C6: no dispatch loop (find, inspect, logs, shell) ever issues a probe or
any other SSH command against a resolved host record with an empty private
address: every issued call targets the non-empty private address of one of
the resolved records. -/
theorem C6_empty_address_skipped (l : List InstanceData) (net : String → String → SSHEnv)
    (stream : String → String → StreamEnv) (ishellEnv : String → ShellEnv)
    (searchTerm cid : String) (args : List String) (m : TermMode) :
    (∀ c ∈ (find (.ok l) net searchTerm).1,
      ∃ i ∈ l, i.privateIP ≠ "" ∧ c.host = i.privateIP) ∧
    (∀ c ∈ (inspectContainer (.ok l) net cid).1.calls,
      ∃ i ∈ l, i.privateIP ≠ "" ∧ c.host = i.privateIP) ∧
    (∀ c ∈ (followContainerLogs (.ok l) net stream cid).1.calls,
      ∃ i ∈ l, i.privateIP ≠ "" ∧ c.host = i.privateIP) ∧
    (∀ c ∈ (shell (.ok l) net ishellEnv cid args m).1.calls,
      ∃ i ∈ l, i.privateIP ≠ "" ∧ c.host = i.privateIP) := by
  refine ⟨?_, ?_, ?_, ?_⟩
  · intro c hc
    rw [(find_components l net searchTerm).1, (findGo_spec net searchTerm l).1] at hc
    simp only [List.mem_map] at hc
    obtain ⟨i, hi, rfl⟩ := hc
    rw [reachable, List.mem_filter] at hi
    exact ⟨i, hi.1, by simpa using hi.2, rfl⟩
  · intro c hc
    rw [inspectContainer_calls] at hc
    exact (inspectLoop_calls_spec net cid l c hc).2
  · intro c hc
    rw [followContainerLogs_calls] at hc
    exact (logsLoop_calls_spec net stream cid l c hc).2
  · intro c hc
    rw [shell_calls] at hc
    exact (shellLoop_calls_spec net ishellEnv cid (shellFullCommand args) m l c hc).2

/-- C6 witness: in a concrete `find` run over one reachable instance, the
recorded call targets that instance's non-empty private address. -/
theorem C6_witness :
    ∃ i ∈ [inst1], i.privateIP ≠ "" ∧
      (Call.sshCommand "10.0.0.5" (findCmd "") false true).host = i.privateIP :=
  (C6_empty_address_skipped [inst1] netOkEmpty (fun _ _ => okStream)
    (fun _ => okShellEnv) "" "abc" [] (TermMode.cooked 0)).1
    (Call.sshCommand "10.0.0.5" (findCmd "") false true) (by decide)

/-- C8: when the searched container id matches on no host (every reachable
host's probe returns empty output), inspect, logs and shell each probe every
reachable host exactly once (and issue no other remote call), print a
plain-text "not found" message, and return without error. -/
theorem C8_not_found_clean (l : List InstanceData) (net : String → String → SSHEnv)
    (stream : String → String → StreamEnv) (ishellEnv : String → ShellEnv)
    (cid : String) (args : List String) (m : TermMode)
    (h : ∀ inst ∈ l, inst.privateIP ≠ "" → probeResult net cid inst = .ok "") :
    (inspectContainer (.ok l) net cid).1.calls = (reachable l).map (probeCall cid) ∧
    (inspectContainer (.ok l) net cid).1.stdout =
      ["Container not found on any instance."] ∧
    (inspectContainer (.ok l) net cid).2 = .ok () ∧
    (followContainerLogs (.ok l) net stream cid).1.calls =
      (reachable l).map (probeCall cid) ∧
    (followContainerLogs (.ok l) net stream cid).1.stdout =
      ["Container not found on any instance or unable to connect."] ∧
    (followContainerLogs (.ok l) net stream cid).2 = .ok () ∧
    (shell (.ok l) net ishellEnv cid args m).1.calls = (reachable l).map (probeCall cid) ∧
    (shell (.ok l) net ishellEnv cid args m).1.stdout =
      ["Container not found on any instance or unable to connect."] ∧
    (shell (.ok l) net ishellEnv cid args m).2.2 = .ok () := by
  have hnm : ∀ inst ∈ l, inst.privateIP ≠ "" →
      probeNoMatch (probeResult net cid inst) = true := by
    intro inst hi hip
    rw [h inst hi hip]
    rfl
  obtain ⟨hic, his, hif⟩ := inspectLoop_noMatch net cid l hnm
  obtain ⟨hlc, hls, hlf⟩ := logsLoop_noMatch net stream cid l hnm
  obtain ⟨hsc, hss, hsm, hsf⟩ :=
    shellLoop_noMatch net ishellEnv cid (shellFullCommand args) m l hnm
  rcases hi : inspectLoop net cid l with ⟨⟨ic, is_, il⟩, ifd⟩
  rcases hl : logsLoop net stream cid l with ⟨⟨lc, ls_, ll⟩, lfd⟩
  rcases hs : shellLoop net ishellEnv cid (shellFullCommand args) m l with ⟨⟨sc, ss_, sl⟩, sm, sfd⟩
  rw [hi] at hic his hif
  rw [hl] at hlc hls hlf
  rw [hs] at hsc hss hsm hsf
  simp only at hic his hif hlc hls hlf hsc hss hsm hsf
  subst hif hlf hsf
  refine ⟨?_, ?_, ?_, ?_, ?_, ?_, ?_, ?_, ?_⟩ <;>
    simp [inspectContainer, followContainerLogs, shell, hi, hl, hs, hic, his, hlc, hls,
      hsc, hss]

/-- C8 witness: with one reachable instance whose probe returns empty
output, inspect probes it once, prints the not-found line, and returns
without error. -/
theorem C8_witness :
    (inspectContainer (.ok [inst1]) netOkEmpty "abc").1.stdout =
      ["Container not found on any instance."] ∧
    (inspectContainer (.ok [inst1]) netOkEmpty "abc").1.calls =
      (reachable [inst1]).map (probeCall "abc") ∧
    (inspectContainer (.ok [inst1]) netOkEmpty "abc").2 = .ok () := by
  have h := C8_not_found_clean [inst1] netOkEmpty (fun _ _ => okStream)
    (fun _ => okShellEnv) "abc" [] (TermMode.cooked 0)
    (by intro inst hi hip; rw [List.mem_singleton.mp hi]; rfl)
  exact ⟨h.2.1, h.1, h.2.2.1⟩

/-- C9: the interactive session bridge restores the saved local terminal
mode on every return path (the final mode always equals the initial mode);
when local stdin is a real terminal and the connection phase succeeds, it
switches to raw mode (with the matching restore recorded) and requests a
remote "xterm" pty sized to the local terminal's current dimensions; when
stdin is not a terminal it emits a warning and never switches to raw mode or
requests a pty. -/
theorem C9_interactive_terminal_handling (env : ShellEnv) (cid command : String)
    (m0 : TermMode) :
    (SSHInteractiveShell env cid command m0).1 = m0 ∧
    (env.currentUser = .ok () → env.agentDial = .ok () → env.dial = .ok () →
      env.newSession = .ok () →
      ((env.isTerminal = true → env.makeRaw = .ok () →
        (SEvent.madeRaw ∈ (SSHInteractiveShell env cid command m0).2.1 ∧
         SEvent.restoredMode ∈ (SSHInteractiveShell env cid command m0).2.1 ∧
         ∀ w h, env.getSize = .ok (w, h) →
           SEvent.requestPty "xterm" h w ∈ (SSHInteractiveShell env cid command m0).2.1)) ∧
      (env.isTerminal = false →
        (SEvent.warnedNotTTY ∈ (SSHInteractiveShell env cid command m0).2.1 ∧
         SEvent.madeRaw ∉ (SSHInteractiveShell env cid command m0).2.1 ∧
         ∀ t hh ww, SEvent.requestPty t hh ww ∉
           (SSHInteractiveShell env cid command m0).2.1)))) := by
  constructor
  · unfold SSHInteractiveShell
    (repeat' split) <;> rfl
  · intro h1 h2 h3 h4
    constructor
    · intro hterm hraw
      refine ⟨?_, ?_, ?_⟩
      · simp only [SSHInteractiveShell, h1, h2, h3, h4, hterm, hraw, if_true]
        rcases hg : env.getSize with eg | ⟨w, h⟩ <;> simp [hg]
        rcases hp : env.requestPty with ep | u <;> simp [hp]
      · simp only [SSHInteractiveShell, h1, h2, h3, h4, hterm, hraw, if_true]
        rcases hg : env.getSize with eg | ⟨w, h⟩ <;> simp [hg]
        rcases hp : env.requestPty with ep | u <;> simp [hp]
      · intro w h hg
        simp only [SSHInteractiveShell, h1, h2, h3, h4, hterm, hraw, hg, if_true]
        rcases hp : env.requestPty with ep | u <;> simp [hp]
    · intro hterm
      have hevs := shellRunPhase_events env ("sudo docker exec -it " ++ cid ++ " " ++ command)
      rcases hsp : shellRunPhase env ("sudo docker exec -it " ++ cid ++ " " ++ command)
        with ⟨evs, r⟩
      rw [hsp] at hevs
      simp only at hevs
      refine ⟨?_, ?_, ?_⟩
      · simp [SSHInteractiveShell, h1, h2, h3, h4, hterm, hsp]
      · simp only [SSHInteractiveShell, h1, h2, h3, h4, hterm, hsp, Bool.false_eq_true,
          if_false]
        intro hmem
        simp only [List.mem_cons] at hmem
        rcases hmem with hmem | hmem
        · exact absurd hmem (by simp)
        · rcases hevs _ hmem with ⟨c, hc⟩ | hc <;> simp at hc
      · intro t hh ww
        simp only [SSHInteractiveShell, h1, h2, h3, h4, hterm, hsp, Bool.false_eq_true,
          if_false]
        intro hmem
        simp only [List.mem_cons] at hmem
        rcases hmem with hmem | hmem
        · exact absurd hmem (by simp)
        · rcases hevs _ hmem with ⟨c, hc⟩ | hc <;> simp at hc

/-- C9 witness: a fully successful interactive session on a real 80x24
terminal ends with the initial mode restored, recorded the raw-mode switch
and its restore, and requested an "xterm" pty of height 24 and width 80. -/
theorem C9_witness :
    (SSHInteractiveShell okShellEnv "abc" "/bin/sh" (TermMode.cooked 7)).1 =
      TermMode.cooked 7 ∧
    SEvent.madeRaw ∈ (SSHInteractiveShell okShellEnv "abc" "/bin/sh"
      (TermMode.cooked 7)).2.1 ∧
    SEvent.restoredMode ∈ (SSHInteractiveShell okShellEnv "abc" "/bin/sh"
      (TermMode.cooked 7)).2.1 ∧
    SEvent.requestPty "xterm" 24 80 ∈ (SSHInteractiveShell okShellEnv "abc" "/bin/sh"
      (TermMode.cooked 7)).2.1 := by
  have h := C9_interactive_terminal_handling okShellEnv "abc" "/bin/sh" (TermMode.cooked 7)
  have h2 := (h.2 rfl rfl rfl rfl).1 rfl rfl
  exact ⟨h.1, h2.1, h2.2.1, h2.2.2 80 24 rfl⟩

/-- C1 counterexample: in a concrete inspect run over one reachable
instance, the per-host probe is executed through the remote executor with
`ignoreExitCode=false`, not true — the trace consists of exactly that one
probe call, and it is false that every recorded probe has
`ignoreExitCode=true`. -/
theorem C1_counterexample :
    (inspectContainer (.ok [inst1]) netOkEmpty "abc").1.calls =
      [Call.sshCommand "10.0.0.5" (checkCmd "abc") false false] ∧
    ¬ ∀ c ∈ (inspectContainer (.ok [inst1]) netOkEmpty "abc").1.calls,
        c.ignoresExitCode = true := by
  have hcalls : (inspectContainer (.ok [inst1]) netOkEmpty "abc").1.calls =
      [Call.sshCommand "10.0.0.5" (checkCmd "abc") false false] := by rfl
  refine ⟨hcalls, fun hall => ?_⟩
  have hm := hall (Call.sshCommand "10.0.0.5" (checkCmd "abc") false false)
    (by rw [hcalls]; exact List.mem_singleton_self _)
  simp [Call.ignoresExitCode] at hm

/-- C1 (amended): every remote-executor call issued by inspect, logs and
shell — in particular every per-host probe — passes `ignoreExitCode=false`;
a probe whose remote command fails is treated as a logged per-host error and
iteration continues: when every reachable host's probe errors, each
reachable host is still probed exactly once and the subcommand returns
without error. -/
theorem C1_amended_probe_flag (l : List InstanceData) (net : String → String → SSHEnv)
    (stream : String → String → StreamEnv) (ishellEnv : String → ShellEnv)
    (cid : String) (args : List String) (m : TermMode) :
    (∀ c ∈ (inspectContainer (.ok l) net cid).1.calls, c.ignoresExitCode = false) ∧
    (∀ c ∈ (followContainerLogs (.ok l) net stream cid).1.calls,
      c.ignoresExitCode = false) ∧
    (∀ c ∈ (shell (.ok l) net ishellEnv cid args m).1.calls,
      c.ignoresExitCode = false) ∧
    ((∀ inst ∈ l, inst.privateIP ≠ "" → ∃ e, probeResult net cid inst = .error e) →
      ((inspectContainer (.ok l) net cid).1.calls = (reachable l).map (probeCall cid) ∧
       (inspectContainer (.ok l) net cid).2 = .ok () ∧
       (followContainerLogs (.ok l) net stream cid).1.calls =
         (reachable l).map (probeCall cid) ∧
       (followContainerLogs (.ok l) net stream cid).2 = .ok () ∧
       (shell (.ok l) net ishellEnv cid args m).1.calls =
         (reachable l).map (probeCall cid) ∧
       (shell (.ok l) net ishellEnv cid args m).2.2 = .ok ())) := by
  refine ⟨?_, ?_, ?_, ?_⟩
  · intro c hc
    rw [inspectContainer_calls] at hc
    exact (inspectLoop_calls_spec net cid l c hc).1
  · intro c hc
    rw [followContainerLogs_calls] at hc
    exact (logsLoop_calls_spec net stream cid l c hc).1
  · intro c hc
    rw [shell_calls] at hc
    exact (shellLoop_calls_spec net ishellEnv cid (shellFullCommand args) m l c hc).1
  · intro h
    have hnm : ∀ inst ∈ l, inst.privateIP ≠ "" →
        probeNoMatch (probeResult net cid inst) = true := by
      intro inst hi hip
      obtain ⟨e, he⟩ := h inst hi hip
      rw [he]
      rfl
    refine ⟨?_, inspectContainer_ok l net cid, ?_,
      followContainerLogs_ok l net stream cid, ?_, shell_ok l net ishellEnv cid args m⟩
    · rw [inspectContainer_calls]
      exact (inspectLoop_noMatch net cid l hnm).1
    · rw [followContainerLogs_calls]
      exact (logsLoop_noMatch net stream cid l hnm).1
    · rw [shell_calls]
      exact (shellLoop_noMatch net ishellEnv cid (shellFullCommand args) m l hnm).1

/-- C1 witness: with one reachable instance whose probe fails with a
non-exit error, the probe call recorded by inspect carries
`ignoreExitCode=false`, the host is probed exactly once, and inspect returns
without error. -/
theorem C1_witness :
    (Call.sshCommand "10.0.0.5" (checkCmd "abc") false false).ignoresExitCode = false ∧
    (inspectContainer (.ok [inst1]) netAllFail "abc").1.calls =
      (reachable [inst1]).map (probeCall "abc") ∧
    (inspectContainer (.ok [inst1]) netAllFail "abc").2 = .ok () := by
  have h := C1_amended_probe_flag [inst1] netAllFail (fun _ _ => okStream)
    (fun _ => okShellEnv) "abc" [] (TermMode.cooked 0)
  have herr := h.2.2.2
    (by intro inst hi hip; rw [List.mem_singleton.mp hi]; exact ⟨_, rfl⟩)
  refine ⟨?_, herr.1, herr.2.1⟩
  exact h.1 (Call.sshCommand "10.0.0.5" (checkCmd "abc") false false)
    (by rw [herr.1]; exact List.mem_singleton_self _)

/-- Network for the C2 counterexample: the probe for container "abc"
matches on every host, the inspect action fails on 10.0.0.5 and succeeds
with non-empty output elsewhere. -/
def netC2 : String → String → SSHEnv := fun h c =>
  if c = checkCmd "abc" then okSSH "abc"
  else if h = "10.0.0.5" then failSSH "inspect failed"
  else okSSH "[]"

/-- True exactly for a buffered executor call running the inspect action for
the given container. -/
def isInspectAction (cid : String) (c : Call) : Bool :=
  match c with
  | .sshCommand _ cmd _ _ => cmd = inspectCmd cid
  | _ => false

/-- C2 counterexample: with two reachable hosts that both report the probe
match, the inspect action is run against BOTH hosts (the first host's action
fails, iteration continues instead of stopping), so two hosts are acted upon
in one invocation. -/
theorem C2_counterexample :
    (inspectContainer (.ok [inst1, inst2]) netC2 "abc").1.calls =
      [Call.sshCommand "10.0.0.5" (checkCmd "abc") false false,
       Call.sshCommand "10.0.0.5" (inspectCmd "abc") false false,
       Call.sshCommand "10.0.0.9" (checkCmd "abc") false false,
       Call.sshCommand "10.0.0.9" (inspectCmd "abc") false false] ∧
    (inspectContainer (.ok [inst1, inst2]) netC2 "abc").1.calls.countP
      (isInspectAction "abc") = 2 := by
  constructor <;> rfl

/-- C2 (amended): iteration stops at the first host whose probe output is
non-empty AND whose action succeeds (for inspect, with non-empty output):
preceding hosts whose probes miss are each probed once, the matched host is
probed and acted upon, no later host is contacted in any way, and the
subcommand returns without error. A host whose action fails does not stop
the iteration, so only action success bounds the number of acted-upon hosts. -/
theorem C2_amended_first_success_stops (net : String → String → SSHEnv)
    (stream : String → String → StreamEnv) (ishellEnv : String → ShellEnv)
    (cid : String) (args : List String) (m : TermMode)
    (l1 rest : List InstanceData) (inst : InstanceData) (out : String)
    (hl1 : ∀ i ∈ l1, i.privateIP ≠ "" → probeNoMatch (probeResult net cid i) = true)
    (hip : inst.privateIP ≠ "")
    (hpr : probeResult net cid inst = .ok out) (hout : out ≠ "") :
    (∀ j, SSHCommand (net inst.privateIP (inspectCmd cid)) (inspectCmd cid) false false =
        .ok j → j ≠ "" →
      (inspectContainer (.ok (l1 ++ inst :: rest)) net cid).1.calls =
        (reachable l1).map (probeCall cid) ++
          [probeCall cid inst,
           Call.sshCommand inst.privateIP (inspectCmd cid) false false] ∧
      (inspectContainer (.ok (l1 ++ inst :: rest)) net cid).2 = .ok ()) ∧
    (SSHCommandStream (stream inst.privateIP (logCmd cid)) (logCmd cid) = .ok () →
      (followContainerLogs (.ok (l1 ++ inst :: rest)) net stream cid).1.calls =
        (reachable l1).map (probeCall cid) ++
          [probeCall cid inst, Call.sshStream inst.privateIP (logCmd cid)] ∧
      (followContainerLogs (.ok (l1 ++ inst :: rest)) net stream cid).2 = .ok ()) ∧
    (∀ m2 evs,
      SSHInteractiveShell (ishellEnv inst.privateIP) cid (shellFullCommand args) m =
        (m2, evs, .ok ()) →
      (shell (.ok (l1 ++ inst :: rest)) net ishellEnv cid args m).1.calls =
        (reachable l1).map (probeCall cid) ++
          [probeCall cid inst,
           Call.interactiveShell inst.privateIP cid (shellFullCommand args)] ∧
      (shell (.ok (l1 ++ inst :: rest)) net ishellEnv cid args m).2.2 = .ok ()) := by
  refine ⟨?_, ?_, ?_⟩
  · intro j hact hj
    refine ⟨?_, inspectContainer_ok _ net cid⟩
    rw [inspectContainer_calls,
      (inspectLoop_append_noMatch net cid l1 (inst :: rest) hl1).1,
      inspectLoop_stop net cid inst rest out j hip hpr hout hact hj]
  · intro hact
    refine ⟨?_, followContainerLogs_ok _ net stream cid⟩
    rw [followContainerLogs_calls,
      (logsLoop_append_noMatch net stream cid l1 (inst :: rest) hl1).1,
      logsLoop_stop net stream cid inst rest out hip hpr hout hact]
  · intro m2 evs hact
    refine ⟨?_, shell_ok _ net ishellEnv cid args m⟩
    rw [shell_calls,
      (shellLoop_append_noMatch net ishellEnv cid (shellFullCommand args) m l1
        (inst :: rest) hl1).1,
      shellLoop_stop net ishellEnv cid (shellFullCommand args) m m2 evs inst rest out
        hip hpr hout hact]

/-- Network for the C2 witness: every probe for "abc" matches and every
inspect action succeeds with non-empty output. -/
def netC2w : String → String → SSHEnv := fun _ c =>
  if c = checkCmd "abc" then okSSH "abc" else okSSH "[]"

/-- C2 witness: with a missing-probe prefix host and a matching host whose
action succeeds, inspect probes the prefix host once, probes and inspects
the matching host, contacts no further host (the trailing host appears in no
call), and returns without error. -/
theorem C2_witness :
    (inspectContainer (.ok ([⟨"i-0000", "api-1", "running", "t3.large", ""⟩] ++
        inst1 :: [inst2])) netC2w "abc").1.calls =
      (reachable [⟨"i-0000", "api-1", "running", "t3.large", ""⟩]).map (probeCall "abc") ++
        [probeCall "abc" inst1,
         Call.sshCommand "10.0.0.5" (inspectCmd "abc") false false] ∧
    (inspectContainer (.ok ([⟨"i-0000", "api-1", "running", "t3.large", ""⟩] ++
        inst1 :: [inst2])) netC2w "abc").2 = .ok () := by
  have h := C2_amended_first_success_stops netC2w (fun _ _ => okStream)
    (fun _ => okShellEnv) "abc" [] (TermMode.cooked 0)
    [⟨"i-0000", "api-1", "running", "t3.large", ""⟩] [inst2] inst1 "abc"
    (by intro i hi hip; rw [List.mem_singleton.mp hi] at hip; simp at hip)
    (by decide) rfl (by decide)
  exact h.1 "[]" rfl (by decide)

/-- Network for the C4 counterexample: the probe matches on 10.0.0.5 only;
elsewhere it returns empty output. -/
def netC4 : String → String → SSHEnv := fun h _ =>
  if h = "10.0.0.5" then okSSH "abc" else okSSH ""

/-- C4 counterexample: in a concrete logs run, the matched host's action
(the log stream) fails, yet the subcommand does not abort: the next host is
still probed afterwards and the subcommand returns without error — the
action error is treated exactly like a per-host probe error. -/
theorem C4_counterexample :
    (followContainerLogs (.ok [inst1, inst2]) netC4 (fun _ _ => failStream "drop")
        "abc").1.calls =
      [Call.sshCommand "10.0.0.5" (checkCmd "abc") false false,
       Call.sshStream "10.0.0.5" (logCmd "abc"),
       Call.sshCommand "10.0.0.9" (checkCmd "abc") false false] ∧
    (followContainerLogs (.ok [inst1, inst2]) netC4 (fun _ _ => failStream "drop")
        "abc").2 = .ok () := by
  constructor <;> rfl

/-- C4 (amended): an error during the matched host's action phase is logged
and iteration continues with the next host, exactly like a per-host probe
error; the subcommand never aborts — with resolved inventory, inspect, logs
and shell always return without error. -/
theorem C4_amended_action_error_continues (net : String → String → SSHEnv)
    (stream : String → String → StreamEnv) (ishellEnv : String → ShellEnv)
    (cid : String) (args : List String) (m : TermMode)
    (inst : InstanceData) (rest : List InstanceData) (out : String)
    (hip : inst.privateIP ≠ "")
    (hpr : probeResult net cid inst = .ok out) (hout : out ≠ "") :
    (∀ l : List InstanceData,
      (inspectContainer (.ok l) net cid).2 = .ok () ∧
      (followContainerLogs (.ok l) net stream cid).2 = .ok () ∧
      (shell (.ok l) net ishellEnv cid args m).2.2 = .ok ()) ∧
    (∀ e, SSHCommand (net inst.privateIP (inspectCmd cid)) (inspectCmd cid) false false =
        .error e →
      (inspectContainer (.ok (inst :: rest)) net cid).1.calls =
        probeCall cid inst :: Call.sshCommand inst.privateIP (inspectCmd cid) false false ::
          (inspectLoop net cid rest).1.calls ∧
      ("Error executing inspect on instance " ++ inst.instanceID ++ ": " ++ e) ∈
        (inspectContainer (.ok (inst :: rest)) net cid).1.logs) ∧
    (∀ e, SSHCommandStream (stream inst.privateIP (logCmd cid)) (logCmd cid) = .error e →
      (followContainerLogs (.ok (inst :: rest)) net stream cid).1.calls =
        probeCall cid inst :: Call.sshStream inst.privateIP (logCmd cid) ::
          (logsLoop net stream cid rest).1.calls ∧
      ("Error executing command on instance " ++ inst.instanceID ++ ": " ++ e) ∈
        (followContainerLogs (.ok (inst :: rest)) net stream cid).1.logs) ∧
    (∀ e m2 evs,
      SSHInteractiveShell (ishellEnv inst.privateIP) cid (shellFullCommand args) m =
        (m2, evs, .error e) →
      (shell (.ok (inst :: rest)) net ishellEnv cid args m).1.calls =
        probeCall cid inst ::
          Call.interactiveShell inst.privateIP cid (shellFullCommand args) ::
          (shellLoop net ishellEnv cid (shellFullCommand args) m2 rest).1.calls ∧
      ("Error starting interactive shell session: " ++ e) ∈
        (shell (.ok (inst :: rest)) net ishellEnv cid args m).1.logs) := by
  refine ⟨?_, ?_, ?_, ?_⟩
  · intro l
    exact ⟨inspectContainer_ok l net cid, followContainerLogs_ok l net stream cid,
      shell_ok l net ishellEnv cid args m⟩
  · intro e hact
    obtain ⟨hc, hl, _⟩ := inspectLoop_actionError net cid inst rest out e hip hpr hout hact
    refine ⟨?_, ?_⟩
    · rw [inspectContainer_calls, hc]
    · rw [inspectContainer_logs, hl]
      exact List.mem_cons_self _ _
  · intro e hact
    obtain ⟨hc, hl, _⟩ := logsLoop_actionError net stream cid inst rest out e hip hpr hout hact
    refine ⟨?_, ?_⟩
    · rw [followContainerLogs_calls, hc]
    · rw [followContainerLogs_logs, hl]
      exact List.mem_cons_self _ _
  · intro e m2 evs hact
    obtain ⟨hc, hl, _⟩ := shellLoop_actionError net ishellEnv cid (shellFullCommand args)
      m m2 evs inst rest out e hip hpr hout hact
    refine ⟨?_, ?_⟩
    · rw [shell_calls, hc]
    · rw [shell_logs, hl]
      exact List.mem_cons_self _ _

/-- Network for the C4 witness: every probe for "abc" matches and the
inspect action fails with a non-exit remote error. -/
def netC4w : String → String → SSHEnv := fun _ c =>
  if c = checkCmd "abc" then okSSH "abc" else failSSH "boom"

/-- C4 witness: with one matching host whose inspect action fails, the
subcommand logs the failure, continues (the trace extends past the failed
action), and returns without error. -/
theorem C4_witness :
    (inspectContainer (.ok [inst1]) netC4w "abc").2 = .ok () ∧
    (inspectContainer (.ok [inst1]) netC4w "abc").1.calls =
      probeCall "abc" inst1 ::
        Call.sshCommand "10.0.0.5" (inspectCmd "abc") false false ::
        (inspectLoop netC4w "abc" []).1.calls := by
  have h := C4_amended_action_error_continues netC4w (fun _ _ => okStream)
    (fun _ => okShellEnv) "abc" [] (TermMode.cooked 0) inst1 [] "abc"
    (by decide) rfl (by decide)
  exact ⟨(h.1 [inst1]).1, (h.2.1 _ rfl).1⟩

/-- C5 counterexample: with the search term "a b", the remote filter command
`find` executes greps for "ab" — the term with its space removed — not for
the caller's term "a b" passed through unchanged. -/
theorem C5_counterexample :
    (find (.ok [inst1]) netOkEmpty "a b").1 =
      [Call.sshCommand "10.0.0.5" (psCmd ++ " | grep \x27ab\x27") false true] ∧
    findCmd "a b" ≠ psCmd ++ " | grep \x27a b\x27" := by
  constructor
  · rfl
  · decide

/-- C5 (amended): `find` iterates all reachable hosts with no stop on first
match (one probe per reachable host, in order, regardless of outcomes); the
search term is passed to the remote grep with all spaces removed; and every
printed row carries the name of the host whose output produced it, so output
from one host is never attributed to another. -/
theorem C5_amended_find_semantics (l : List InstanceData)
    (net : String → String → SSHEnv) (searchTerm : String) :
    (find (.ok l) net searchTerm).1 = (reachable l).map (findProbeCall searchTerm) ∧
    (find (.ok l) net searchTerm).2.1 =
      ((reachable l).map (findRowsOf net searchTerm)).flatten ∧
    (∀ inst, ∀ r ∈ findRowsOf net searchTerm inst, r.ec2Instance = inst.name) ∧
    (searchTerm ≠ "" →
      findCmd searchTerm =
        psCmd ++ " | grep \x27" ++ removeSpaces searchTerm ++ "\x27") := by
  refine ⟨?_, ?_, ?_, ?_⟩
  · rw [(find_components l net searchTerm).1, (findGo_spec net searchTerm l).1]
  · rw [(find_components l net searchTerm).2, (findGo_spec net searchTerm l).2]
  · intro inst r hr
    unfold findRowsOf at hr
    split at hr
    · exact rowsOfOutput_name _ _ r hr
    · simp at hr
  · intro h
    simp [findCmd, h]

/-- Network for the C5 witness: one well-formed container row on every
host. -/
def netC5w : String → String → SSHEnv := fun _ _ =>
  okSSH "cname\tcid0\tUp 2 hours\t2 hours\n"

/-- C5 witness: in a concrete `find` run, every reachable host is probed
once, the row printed from `web-1`'s output carries the name `web-1`, and
the command built for the term "web app" greps for "webapp". -/
theorem C5_witness :
    (find (.ok [inst1]) netC5w "web").1 =
      (reachable [inst1]).map (findProbeCall "web") ∧
    (⟨"web-1", "cid0", "Up 2 hours", "2 hours", "cname"⟩ : Row).ec2Instance = "web-1" ∧
    findCmd "web app" = psCmd ++ " | grep \x27" ++ removeSpaces "web app" ++ "\x27" := by
  refine ⟨(C5_amended_find_semantics [inst1] netC5w "web").1, ?_, ?_⟩
  · exact (C5_amended_find_semantics [inst1] netC5w "web").2.2.1 inst1
      ⟨"web-1", "cid0", "Up 2 hours", "2 hours", "cname"⟩ (by decide)
  · exact (C5_amended_find_semantics [inst1] netC5w "web app").2.2.2 (by decide)

end Enum
